import Mathlib

/-!
# aiml2rs: the AIML tag-stream transducer

A shallow embedding of `processAIML` and `WriteRiveScript` (src/lib/aiml2rs.go)
and of the helpers they call (`attr`, `rawXML`, `NewAIMLState`, `NewCategory`,
`warn`).

Modelling decisions.

* Go strings are Lean `String`s (the XML decoder only hands out valid UTF-8).
* `strings.ToLower` maps `unicode.ToLower` over the runes of a string.  The
  Unicode case table is not part of the repository, so the rune mapping is a
  parameter `lower : Char → Char` of every definition that lower-cases; the
  theorems hold for every such mapping.  `asciiLower` is the instance used to
  evaluate the definitions on concrete ASCII inputs.
* `*Category` pointers are indices into an explicit heap (`Machine.heap`):
  `state.Category` and the entries of `parsed.Topics` can point at the same
  object, exactly as in the Go program.
* A Go `map[string][]*Category` is an association list; it is read by key.
  Go does not specify the iteration order of a map, so the serializer takes the
  order in which `range` yields the entries as an argument.
* The output file is the list of the strings written to it.
* An index-out-of-range panic is the result `none`.
-/

namespace Aiml2rs

/-! ## Library functions -/

/-- Go `unicode.IsSpace`: the Latin-1 white space characters and the other code
points with the Unicode White_Space property. -/
def isSpace (c : Char) : Bool :=
  let n := c.toNat
  n = 9 || n = 10 || n = 11 || n = 12 || n = 13 || n = 32 || n = 0x85 || n = 0xA0 ||
  n = 0x1680 || (0x2000 ≤ n && n ≤ 0x200A) || n = 0x2028 || n = 0x2029 ||
  n = 0x202F || n = 0x205F || n = 0x3000

/-- Go `strings.TrimSpace` on the runes of a string. -/
def trimSpaceL (l : List Char) : List Char :=
  ((l.dropWhile isSpace).reverse.dropWhile isSpace).reverse

/-- Go `strings.TrimSpace`. -/
def TrimSpace (s : String) : String := ⟨trimSpaceL s.data⟩

/-- Go `strings.ToLower`, given the rune mapping `unicode.ToLower`. -/
def ToLower (lower : Char → Char) (s : String) : String := ⟨s.data.map lower⟩

/-- The restriction of `unicode.ToLower` to ASCII: `A`..`Z` go to `a`..`z`, every
other character is returned unchanged. -/
def asciiLower (c : Char) : Char := c.toLower

/-- Whether `s` starts with `p` (Go `strings.HasPrefix` on runes). -/
def beginsWith : List Char → List Char → Bool
  | _, [] => true
  | [], _ :: _ => false
  | c :: s, d :: p => c == d && beginsWith s p

/-- Whether `sub` occurs in `s`: Go `strings.Index(s, sub) > -1`. -/
def containsL : List Char → List Char → Bool
  | [], sub => beginsWith [] sub
  | c :: r, sub => beginsWith (c :: r) sub || containsL r sub

/-- Go `strings.Index(s, sub) > -1`. -/
def Contains (s sub : String) : Bool := containsL s.data sub.data

/-- Go `strings.Replace(s, "_", "*", -1)`: both strings are one character long,
so the replacement is a character map. -/
def replaceUnderscore (s : String) : String :=
  ⟨s.data.map (fun c => if c = '_' then '*' else c)⟩

/-- Go `strings.Join`. -/
def Join : List String → String → String
  | [], _ => ""
  | [x], _ => x
  | x :: y :: r, sep => x ++ sep ++ Join (y :: r) sep

/-- The regular expression `OldGetTag` = `^get_(.+?)$` applied with
`FindStringSubmatch`: the result is the first group when the string matches.
`.` matches every character except a line feed and `$` only matches at the end
of the text, so the group is the whole non-empty rest after `get_`. -/
def OldGetTag (tag : String) : Option String :=
  match tag.data with
  | 'g' :: 'e' :: 't' :: '_' :: c :: r =>
    if (c :: r).all (fun x => x != Char.ofNat 10) then some ⟨c :: r⟩ else none
  | _ => none

/-- The `IgnoreTags` table: tags for which no warning is given. -/
def IgnoreTags : List String :=
  ["a", "b", "i", "br", "ul", "p", "li", "em", "img",
   "eval", "learn",
   "oob", "dial", "dialcontact", "map", "search", "sms", "recipient",
   "message"]

/-! ## Data model -/

/-- The part of `Config` that the transducer reads. -/
structure Config where
  RealTopics : Bool
deriving DecidableEq, Repr

/-- Type `Category`: state information for an AIML category. -/
structure Category where
  Pattern : String
  That : String
  Template : String
  Conditions : List String
deriving DecidableEq, Repr

/-- Go `NewCategory`; also the zero value `&Category{}` (a nil slice and an empty
slice are both of length 0). -/
def NewCategory : Category :=
  { Pattern := "", That := "", Template := "", Conditions := [] }

/-- Type `AIMLState`: temporary parsing state.  `Category` is a pointer: an index
into the heap of the machine. -/
structure AIMLState where
  Topic : String
  Buffer : String
  InTag : String
  Category : Nat
  Thinking : Bool
  SetName : String
  SetValue : String
  InRandom : Bool
  Random : List String
  InCondition : Bool
  ConditionName : String
  Conditions : List String
  Tainted : Bool
deriving DecidableEq, Repr

/-- Type `ParsedAIML`: for each topic the pointers of its categories. -/
structure ParsedAIML where
  Topics : List (String × List Nat)
deriving DecidableEq, Repr

/-- Everything `processAIML` reads and writes while it consumes tokens: the
parsing state, the parsed categories, the `Category` objects allocated so far
and the warnings of the application. -/
structure Machine where
  state : AIMLState
  parsed : ParsedAIML
  heap : List Category
  warnings : List String
deriving DecidableEq, Repr

/-- An XML token as `encoding/xml` produces it.  Only the local part of a name is
read by the program.  `Other` stands for comments, processing instructions and
directives. -/
inductive Token where
  | CharData (text : String)
  | StartElement (name : String) (attrs : List (String × String))
  | EndElement (name : String)
  | Other
deriving DecidableEq, Repr

/-- Go `NewAIMLState` together with the empty `ParsedAIML` of `processAIML`: the
first category object is allocated at address 0. -/
def NewAIMLState : Machine :=
  { state :=
      { Topic := "random", Buffer := "", InTag := "", Category := 0, Thinking := false,
        SetName := "", SetValue := "", InRandom := false, Random := [],
        InCondition := false, ConditionName := "", Conditions := [], Tainted := false }
    parsed := { Topics := [] }
    heap := [NewCategory]
    warnings := [] }

/-! ## Helpers of the program -/

/-- Go `attr`: the value of the first attribute whose lower-cased name is `name`,
the empty string when there is none. -/
def attr (lower : Char → Char) : List (String × String) → String → String
  | [], _ => ""
  | (k, v) :: rest, name => if ToLower lower k = name then v else attr lower rest name

/-- The attribute list written by `rawXML`: each attribute as `k="v"`, a blank
between two of them. -/
def rawAttrs : List (String × String) → String
  | [] => ""
  | [(k, v)] => k ++ "=\"" ++ v ++ "\""
  | (k, v) :: a :: rest => k ++ "=\"" ++ v ++ "\"" ++ " " ++ rawAttrs (a :: rest)

/-- Go `rawXML`: reconstructs an XML tag from its token. -/
def rawXML : Token → String
  | .StartElement name attrs =>
    if attrs.length > 0 then "<" ++ name ++ " " ++ rawAttrs attrs ++ ">"
    else "<" ++ name ++ ">"
  | .EndElement name => "</" ++ name ++ ">"
  | _ => "<>"

/-- Dereference of a category pointer. -/
def deref (heap : List Category) (p : Nat) : Category := heap.getD p NewCategory

/-- Assignment through a category pointer. -/
def store (heap : List Category) (p : Nat) (c : Category) : List Category := heap.set p c

/-- Go `parsed.Topics[topic]`: the nil slice when the key is absent. -/
def lookupTopic : List (String × List Nat) → String → List Nat
  | [], _ => []
  | (k, ps) :: rest, topic => if k = topic then ps else lookupTopic rest topic

/-- Go `parsed.Topics[topic] = append(parsed.Topics[topic], p)`, the key being
created first when it is absent. -/
def appendTopic : List (String × List Nat) → String → Nat → List (String × List Nat)
  | [], topic, p => [(topic, [p])]
  | (k, ps) :: rest, topic, p =>
    if k = topic then (k, ps ++ [p]) :: rest else (k, ps) :: appendTopic rest topic p

/-- Go `xs[len(xs)-1] += text` on a slice that is not empty. -/
def appendLast : List String → String → List String
  | [], _ => []
  | [x], t => [x ++ t]
  | x :: y :: r, t => x :: appendLast (y :: r) t

/-- Go `a.warn`: one more warning. -/
def warn (m : Machine) (msg : String) : Machine :=
  { m with warnings := m.warnings ++ [msg] }

/-- The records of the result set stored under a topic, in order. -/
def recordsOf (m : Machine) (topic : String) : List Category :=
  (lookupTopic m.parsed.Topics topic).map (deref m.heap)

/-- The result set as the serializer sees it: every topic with its records. -/
def resultSet (m : Machine) : List (String × List Category) :=
  m.parsed.Topics.map (fun kv => (kv.1, kv.2.map (deref m.heap)))

/-! ## The transducer -/

/-- Replaces the parsing state of a machine. -/
def setState (m : Machine) (s : AIMLState) : Machine := { m with state := s }

/-- Outcome of the tag dispatch of `processAIML`: either the branch ended in
`continue`, or control falls through to the routing code after the dispatch,
with the value of `tag` (one branch reassigns it) and of `newText`. -/
inductive TagResult where
  | next (m : Machine)
  | emit (m : Machine) (tag : String) (newText : String)
deriving DecidableEq, Repr

/-- The text-node branch of `processAIML` (`event == 'T'`).  The result is `none`
when `state.Conditions[len(state.Conditions)-1]` is out of range. -/
def handleText (m : Machine) (node : String) : Option Machine :=
  let state := m.state
  let text := TrimSpace node
  if text = "" then some m
  else if state.SetName ≠ "" then
    some (setState m { state with SetValue := state.SetValue ++ text })
  else if state.InRandom then
    let random := if state.Random.length = 0 then state.Random ++ [""] else state.Random
    some (setState m { state with Random := appendLast random text })
  else if state.InCondition then
    if state.Conditions.length = 0 then none
    else some (setState m { state with Conditions := appendLast state.Conditions text })
  else some (setState m { state with Buffer := state.Buffer ++ text })

/-- The `category` branch on a closing tag. -/
def closeCategory (m : Machine) : Machine :=
  let state := m.state
  if state.Tainted then m
  else
    let heap :=
      if state.Conditions.length > 0 then
        store m.heap state.Category
          { deref m.heap state.Category with Conditions := state.Conditions }
      else m.heap
    let state1 :=
      if state.Conditions.length > 0 then { state with Conditions := [] } else state
    { m with
      state := state1
      heap := heap
      parsed := { Topics := appendTopic m.parsed.Topics state.Topic state.Category } }

/-- The `pattern` / `that` / `template` branch on a closing tag. -/
def closeContainer (m : Machine) (tag : String) : Machine :=
  let state := m.state
  let buffer :=
    if tag = "pattern" && Contains state.Buffer "_" then replaceUnderscore state.Buffer
    else state.Buffer
  let cat := deref m.heap state.Category
  let cat1 :=
    if tag = "pattern" then { cat with Pattern := buffer }
    else if tag = "that" then { cat with That := buffer }
    else if tag = "template" then { cat with Template := buffer }
    else cat
  { m with
    state := { state with Buffer := buffer }
    heap := store m.heap state.Category cat1 }

/-- The `set` branch on a closing tag with a name: the value of `newText` and
the machine with the set buffers cleared. -/
def closeSet (config : Config) (m : Machine) : Machine × String :=
  let state := m.state
  let name :=
    if state.SetName = "topic" && !config.RealTopics then "alicetopic" else state.SetName
  let value :=
    if name = "name" then "\x7bformal\x7d" ++ state.SetValue ++ "\x7b/formal\x7d"
    else state.SetValue
  let value :=
    if value = "" || value = "\x7bformal\x7d\x7b/formal\x7d" then "<undef>" else value
  let newText := "<set " ++ name ++ "=" ++ value ++ ">"
  let newText := if !state.Thinking then newText ++ ("<get " ++ name ++ ">") else newText
  (setState m { state with SetName := "", SetValue := "" }, newText)

/-- The loop of the `random` branch on a closing tag: the trimmed items that are
not empty. -/
def randomItems (random : List String) : List String :=
  (random.map TrimSpace).filter (fun item => item ≠ "")

/-- The `li` branch while inside a condition (and not inside a random). -/
def conditionItem (lower : Char → Char) (file : String) (m : Machine)
    (node : List (String × String)) : Machine :=
  let state := m.state
  let liName := attr lower node "name"
  let name := if liName ≠ "" then liName else state.ConditionName
  if name = "" then
    warn m ("Condition too complicated to handle at " ++ file ++ " in pattern " ++
      (deref m.heap state.Category).Pattern)
  else
    let value := attr lower node "value"
    if value ≠ "" then
      let value := if ToLower lower value = "unknown" then "undefined" else value
      let value := if ToLower lower value = "om" then "undefined" else value
      if value = "*" then
        setState m { state with
          Conditions := state.Conditions ++ ["<get " ++ name ++ "> != undefined => "] }
      else
        setState m { state with
          Conditions := state.Conditions ++ ["<get " ++ name ++ "> == " ++ value ++ " => "] }
    else setState m { state with InCondition := false }

/-- The tag dispatch of `processAIML` (the long `if` / `else if` chain of the
`else` branch of `event == 'T'`).  `start` is `event == 'S'`, `tag` the
lower-cased name and `node` the attributes of the start element (none for an
end element, whose `node` is the zero value). -/
def handleTag (lower : Char → Char) (config : Config) (file : String) (m : Machine)
    (start : Bool) (tag : String) (node : List (String × String)) : TagResult :=
  let state := m.state
  if tag = "aiml" then .next m
  else if tag = "topic" then
    if start && config.RealTopics then
      .next (setState m { state with Topic := attr lower node "name" })
    else .next m
  else if tag = "category" then
    if start then
      .next { m with
        heap := m.heap ++ [NewCategory]
        state := { state with Category := m.heap.length, Tainted := false } }
    else .next (closeCategory m)
  else if tag = "pattern" || tag = "that" || tag = "template" then
    if start then .next (setState m { state with InTag := tag, Buffer := "" })
    else .next (closeContainer m tag)
  else if tag = "think" then
    .next (setState m { state with Thinking := start })
  else if tag = "star" || tag = "input" || tag = "request" || tag = "response" then
    if start then
      let rs := if tag = "response" then "reply" else if tag = "request" then "input" else tag
      let index := attr lower node "index"
      let index := if index = "" then "1" else index
      let text := if index = "1" then "<" ++ rs ++ ">" else "<" ++ rs ++ index ++ ">"
      .emit m tag text
    else .next m
  else if tag = "id" then
    if start then .emit m tag "<id>" else .next m
  else if tag = "bot" || tag = "get" || Contains tag "get_" then
    if start then
      let name := attr lower node "name"
      let tagName : String × String :=
        match OldGetTag tag with
        | some group => ("get", group)
        | none => (tag, name)
      let newText :=
        if tagName.2 ≠ "" then "<" ++ tagName.1 ++ " " ++ tagName.2 ++ ">" else ""
      .emit m tagName.1 newText
    else .next m
  else if tag = "set" then
    if start then
      .next (setState m { state with SetName := attr lower node "name", SetValue := "" })
    else if state.SetName = "" then .next m
    else .emit (closeSet config m).1 tag (closeSet config m).2
  else if tag = "random" then
    if start then
      let m1 :=
        if state.InRandom then
          setState
            (warn m ("Embedded randoms at " ++ file ++ " in pattern " ++
              (deref m.heap state.Category).Pattern))
            { state with Tainted := true }
        else m
      .next (setState m1 { m1.state with InRandom := true, Random := [] })
    else
      let text := Join (randomItems state.Random) "|"
      .emit (setState m { state with InRandom := false, Random := [] }) tag
        ("\x7brandom\x7d" ++ text ++ "\x7b/random\x7d")
  else if tag = "condition" then
    if start then
      .next (setState m { state with
        InCondition := true, ConditionName := attr lower node "name", Conditions := [] })
    else
      .next (setState m { state with
        InCondition := false, ConditionName := "", Conditions := [] })
  else if tag = "li" then
    if state.InRandom then
      if start then .next (setState m { state with Random := state.Random ++ [""] })
      else .next m
    else if state.InCondition then .next (conditionItem lower file m node)
    else .next m
  else if tag = "srai" then
    if start then .emit m tag "\x7b@" else .emit m tag "\x7d"
  else if tag = "sr" || tag = "person" then
    if start then
      if tag = "sr" then .emit m tag "<@>" else .emit m tag "<person>"
    else .emit m tag ""
  else if tag = "uppercase" || tag = "lowercase" || tag = "formal" || tag = "sentence" then
    if start then .emit m tag ("\x7b" ++ tag ++ "\x7d")
    else .emit m tag ("\x7b/" ++ tag ++ "\x7d")
  else if tag = "date" || tag = "size" then
    if start then
      let format := attr lower node "format"
      let args := if tag = "date" && format ≠ "" then " " ++ format else ""
      .emit m tag ("<call>" ++ tag ++ args ++ "</call>")
    else .emit m tag ""
  else .emit m tag ""

/-- The code of `processAIML` after the tag dispatch: an empty `newText` is
replaced by the literal tag, the text goes to the buffer of the innermost open
construct, and a tag that was neither handled nor ignored gives a warning. -/
def routeText (m : Machine) (token : Token) (tag : String) (newText : String) : Machine :=
  let state := m.state
  let handled := decide (newText ≠ "")
  let newText := if newText = "" then rawXML token else newText
  let m1 :=
    if state.SetName ≠ "" then
      setState m { state with SetValue := state.SetValue ++ newText }
    else if state.InRandom then
      let random := if state.Random.length = 0 then state.Random ++ [""] else state.Random
      setState m { state with Random := appendLast random newText }
    else if state.InCondition then
      if state.Conditions.length > 0 then
        setState m { state with Conditions := appendLast state.Conditions newText }
      else m
    else setState m { state with Buffer := state.Buffer ++ newText }
  let skipWarning := decide (tag ∈ IgnoreTags)
  if handled || skipWarning then m1
  else warn m1 ("Unhandled AIML tag: " ++ rawXML token)

/-- One iteration of the token loop of `processAIML`. -/
def step (lower : Char → Char) (config : Config) (file : String) (m : Machine)
    (token : Token) : Option Machine :=
  match token with
  | .Other => some m
  | .CharData node => handleText m node
  | .StartElement name attrs =>
    match handleTag lower config file m true (ToLower lower name) attrs with
    | .next m1 => some m1
    | .emit m1 tag newText => some (routeText m1 token tag newText)
  | .EndElement name =>
    match handleTag lower config file m false (ToLower lower name) [] with
    | .next m1 => some m1
    | .emit m1 tag newText => some (routeText m1 token tag newText)

/-- The token loop of `processAIML` from a given machine. -/
def run (lower : Char → Char) (config : Config) (file : String) :
    Machine → List Token → Option Machine
  | m, [] => some m
  | m, token :: rest =>
    match step lower config file m token with
    | none => none
    | some m1 => run lower config file m1 rest

/-- Go `processAIML` up to the call of `WriteRiveScript`: the machine at the end
of the token stream. -/
def processAIML (lower : Char → Char) (config : Config) (file : String)
    (tokens : List Token) : Option Machine :=
  run lower config file NewAIMLState tokens

/-! ## The serializer -/

/-- The regular expression `TriggerSyntaxError` =
`[^A-Za-z0-9<>\{\}= \*_\#\(\)\[\]]` on one character: whether the character is
outside the class of the letters `A`-`Z` and `a`-`z`, the digits, and
`<`, `>`, the two braces (code points 123 and 125), `=`, blank, `*`, `_`, `#`,
`(`, `)`, `[`, `]`. -/
def TriggerSyntaxError (c : Char) : Bool :=
  !(('A' ≤ c && c ≤ 'Z') || ('a' ≤ c && c ≤ 'z') || ('0' ≤ c && c ≤ '9') ||
    c = '<' || c = '>' || c = Char.ofNat 123 || c = Char.ofNat 125 || c = '=' || c = ' ' ||
    c = '*' || c = '_' || c = '#' || c = '(' || c = ')' || c = '[' || c = ']')

/-- Go `len(TriggerSyntaxError.FindStringSubmatch(s)) > 0`: some character of
the string matches. -/
def hasSyntaxError (s : String) : Bool := s.data.any TriggerSyntaxError

/-- Go `TriggerSyntaxError.ReplaceAllLiteralString(s, "")`: the matching
characters are removed. -/
def stripSyntaxErrors (s : String) : String :=
  ⟨s.data.filter (fun c => !TriggerSyntaxError c)⟩

/-- Go `strings.Replace(s, "\n", "\\n", -1)`: every line feed becomes a backslash
followed by `n`. -/
def escapeNewlines (s : String) : String :=
  ⟨s.data.flatMap (fun c => if c = Char.ofNat 10 then [Char.ofNat 92, 'n'] else [c])⟩

/-- The rest of a match of `HTMLBreak` after the first character of `.+?`: up to
the first `>`, with no line feed before it.  The result is what follows the
match. -/
def breakEnd : List Char → Option (List Char)
  | [] => none
  | c :: r => if c = '>' then some r else if c = Char.ofNat 10 then none else breakEnd r

/-- A match of `HTMLBreak` = `<br.+?>` at the start of the text: `<br`, one
character that is not a line feed, then the shortest run up to a `>`.  The
result is what follows the match. -/
def breakMatch : List Char → Option (List Char)
  | '<' :: 'b' :: 'r' :: c :: r => if c = Char.ofNat 10 then none else breakEnd r
  | _ => none

/-- Go `HTMLBreak.ReplaceAllLiteralString(s, "\n")` on characters: the matches
are found from left to right and each is replaced by a line feed.  Every round
consumes a character, so a fuel of the length of the text is enough. -/
def replaceBreaks : Nat → List Char → List Char
  | 0, l => l
  | _ + 1, [] => []
  | fuel + 1, c :: r =>
    match breakMatch (c :: r) with
    | some rest => Char.ofNat 10 :: replaceBreaks fuel rest
    | none => c :: replaceBreaks fuel r

/-- Go `HTMLBreak.ReplaceAllLiteralString(s, "\n")`. -/
def HTMLBreak (s : String) : String := ⟨replaceBreaks s.data.length s.data⟩

/-- The text of a condition line or of the template line: line feeds escaped,
break tags turned into line feeds, trimmed. -/
def formatReply (s : String) : String := TrimSpace (HTMLBreak (escapeNewlines s))

/-- The body of the inner loop of `WriteRiveScript` for one category: the strings
written to the file and the warnings given. -/
def writeCategory (lower : Char → Char) (category : Category) : List String × List String :=
  let trigger := ToLower lower category.Pattern
  if hasSyntaxError trigger then
    ([], ["Trigger \x27" ++ trigger ++ "\x27 has syntax errors. Skipping."])
  else
    (["+ " ++ trigger ++ "\n"] ++
      (if category.That ≠ "" then
        ["% " ++ stripSyntaxErrors (ToLower lower category.That) ++ "\n"]
       else []) ++
      category.Conditions.map (fun c => "* " ++ formatReply c ++ "\n") ++
      ["- " ++ formatReply category.Template ++ "\n\n"],
     [])

/-- The inner loop of `WriteRiveScript` over the categories of a topic. -/
def writeCategories (lower : Char → Char) : List Category → List String × List String
  | [] => ([], [])
  | category :: rest =>
    ((writeCategory lower category).1 ++ (writeCategories lower rest).1,
     (writeCategory lower category).2 ++ (writeCategories lower rest).2)

/-- The body of the outer loop of `WriteRiveScript` for one topic. -/
def writeTopic (lower : Char → Char) (heap : List Category) (topic : String)
    (categories : List Nat) : List String × List String :=
  ((if topic ≠ "random" then ["> topic " ++ topic ++ "\n\n"] else []) ++
      (writeCategories lower (categories.map (deref heap))).1 ++
      (if topic ≠ "random" then ["< topic\n\n"] else []),
   (writeCategories lower (categories.map (deref heap))).2)

/-- The outer loop of `WriteRiveScript` over the entries of the map, in the order
in which the iteration yields them. -/
def writeTopics (lower : Char → Char) (heap : List Category) :
    List (String × List Nat) → List String × List String
  | [] => ([], [])
  | (topic, categories) :: rest =>
    ((writeTopic lower heap topic categories).1 ++ (writeTopics lower heap rest).1,
     (writeTopic lower heap topic categories).2 ++ (writeTopics lower heap rest).2)

/-- Go `WriteRiveScript`: the strings written to the output file, one for each
`WriteString`, and the warnings of the application afterwards.  `order` is the
sequence of entries that `range parsed.Topics` yields; Go does not specify the
iteration order of a map, so `order` can be any permutation of the entries.
The name of the file and its creation are not modelled. -/
def WriteRiveScript (lower : Char → Char) (m : Machine) (order : List (String × List Nat)) :
    List String × List String :=
  (["// Converted using aiml2rs.go\n", "! version = 2.0\n\n"] ++
      (writeTopics lower m.heap order).1,
   m.warnings ++ (writeTopics lower m.heap order).2)

/-! ## Vocabulary of the statements -/

/-- The tags with a branch of their own in the dispatch of `processAIML`. -/
def knownTags : List String :=
  ["aiml", "topic", "category", "pattern", "that", "template", "think",
   "star", "input", "request", "response", "id", "bot", "get", "set", "random",
   "condition", "li", "srai", "sr", "person", "uppercase", "lowercase", "formal",
   "sentence", "date", "size"]

/-- The machine of a dispatch outcome. -/
def TagResult.machine : TagResult → Machine
  | .next m => m
  | .emit m _ _ => m

/-- Whether a token is a start element whose lower-cased name is `tag`. -/
def isStart (lower : Char → Char) (tag : String) : Token → Bool
  | .StartElement name _ => decide (ToLower lower name = tag)
  | _ => false

/-- Whether a token is an end element whose lower-cased name is `tag`. -/
def isEnd (lower : Char → Char) (tag : String) : Token → Bool
  | .EndElement name => decide (ToLower lower name = tag)
  | _ => false

/-- The outcome of the tag dispatch for a token, with the arguments `step` gives
to `handleTag`; `none` for a token that is not a tag. -/
def dispatch (lower : Char → Char) (config : Config) (file : String) (m : Machine) :
    Token → Option TagResult
  | .StartElement name attrs => some (handleTag lower config file m true (ToLower lower name) attrs)
  | .EndElement name => some (handleTag lower config file m false (ToLower lower name) [])
  | _ => none

/-- The simple-substitution tags. -/
def substitutionTags : List String :=
  ["star", "input", "request", "response", "id", "bot", "get", "srai", "sr", "person",
   "uppercase", "lowercase", "formal", "sentence", "date", "size"]

/-- The punctuation that a trigger may contain: `<`, `>`, the two braces, `=`,
blank, `*`, `_`, `#`, `(`, `)`, `[`, `]`. -/
def triggerPunctuation : List Char :=
  ['<', '>', Char.ofNat 123, Char.ofNat 125, '=', ' ', '*', '_', '#', '(', ')', '[', ']']

/-! ## Basic facts about the library functions -/

theorem toLower_length (lower : Char → Char) (s : String) :
    (ToLower lower s).length = s.length := by
  show (s.data.map lower).length = s.data.length
  exact List.length_map _ _

theorem toLower_undefined_ne_om (lower : Char → Char) :
    ToLower lower "undefined" ≠ "om" := by
  intro h
  have h1 := toLower_length lower "undefined"
  rw [h] at h1
  revert h1
  decide

theorem toLower_star_ne (lower : Char → Char) :
    ToLower lower "*" ≠ "unknown" ∧ ToLower lower "*" ≠ "om" := by
  constructor <;> intro h <;> have h1 := toLower_length lower "*" <;> rw [h] at h1 <;>
    revert h1 <;> decide

theorem appendLast_concat (l : List String) (x t : String) :
    appendLast (l ++ [x]) t = l ++ [x ++ t] := by
  induction l with
  | nil => rfl
  | cons a r ih =>
    cases r with
    | nil => rfl
    | cons b r1 =>
      show a :: appendLast (b :: (r1 ++ [x])) t = a :: b :: (r1 ++ [x ++ t])
      rw [show b :: (r1 ++ [x]) = (b :: r1) ++ [x] from rfl, ih]
      rfl

theorem string_append_ne_empty_left (a b : String) (h : a ≠ "") : a ++ b ≠ "" := by
  intro h1
  apply h
  have h2 := congrArg String.data h1
  simp only [String.data_append] at h2
  apply String.ext
  have : a.data = [] := (List.append_eq_nil.mp h2).1
  simpa using this

theorem formal_wrap_eq_iff (v : String) :
    "\x7bformal\x7d" ++ v ++ "\x7b/formal\x7d" = "\x7bformal\x7d\x7b/formal\x7d" ↔ v = "" := by
  constructor
  · intro h
    have h2 := congrArg String.data h
    simp only [String.data_append] at h2
    have h3 : "\x7bformal\x7d".data ++ v.data ++ "\x7b/formal\x7d".data =
        "\x7bformal\x7d".data ++ [] ++ "\x7b/formal\x7d".data := by
      rw [h2]; rfl
    have h4 := List.append_cancel_right h3
    have h5 := List.append_cancel_left h4
    apply String.ext
    simpa using h5
  · intro h
    subst h
    rfl

theorem set_directive_ne_empty (n v tail : String) :
    "<set " ++ n ++ "=" ++ v ++ ">" ++ tail ≠ "" := by
  rw [String.append_assoc, String.append_assoc, String.append_assoc, String.append_assoc]
  exact string_append_ne_empty_left _ _ (by decide)

/-! ## Dispatch of the tags

One equation for each tag with a branch of its own, one for the tags that
contain `get_`, and one for all the other tags. -/

@[simp]
theorem contains_set : Contains "set" "get_" = false := by decide

@[simp]
theorem contains_random : Contains "random" "get_" = false := by decide

@[simp]
theorem contains_condition : Contains "condition" "get_" = false := by decide

@[simp]
theorem contains_li : Contains "li" "get_" = false := by decide

@[simp]
theorem contains_srai : Contains "srai" "get_" = false := by decide

@[simp]
theorem contains_sr : Contains "sr" "get_" = false := by decide

@[simp]
theorem contains_person : Contains "person" "get_" = false := by decide

@[simp]
theorem contains_uppercase : Contains "uppercase" "get_" = false := by decide

@[simp]
theorem contains_lowercase : Contains "lowercase" "get_" = false := by decide

@[simp]
theorem contains_formal : Contains "formal" "get_" = false := by decide

@[simp]
theorem contains_sentence : Contains "sentence" "get_" = false := by decide

@[simp]
theorem contains_date : Contains "date" "get_" = false := by decide

@[simp]
theorem contains_size : Contains "size" "get_" = false := by decide

theorem handleTag_aiml (lower : Char → Char) (config : Config) (file : String)
    (m : Machine) (start : Bool) (node : List (String × String)) :
    handleTag lower config file m start "aiml" node =
      .next m := by
  simp [handleTag]

theorem handleTag_topic (lower : Char → Char) (config : Config) (file : String)
    (m : Machine) (start : Bool) (node : List (String × String)) :
    handleTag lower config file m start "topic" node =
      if start = true ∧ config.RealTopics = true then
        .next (setState m { m.state with Topic := attr lower node "name" })
      else .next m := by
  simp [handleTag]

theorem handleTag_category (lower : Char → Char) (config : Config) (file : String)
    (m : Machine) (start : Bool) (node : List (String × String)) :
    handleTag lower config file m start "category" node =
      if start then
        .next { m with
          heap := m.heap ++ [NewCategory]
          state := { m.state with Category := m.heap.length, Tainted := false } }
      else .next (closeCategory m) := by
  simp [handleTag]

theorem handleTag_pattern (lower : Char → Char) (config : Config) (file : String)
    (m : Machine) (start : Bool) (node : List (String × String)) :
    handleTag lower config file m start "pattern" node =
      if start then .next (setState m { m.state with InTag := "pattern", Buffer := "" })
      else .next (closeContainer m "pattern") := by
  simp [handleTag]

theorem handleTag_that (lower : Char → Char) (config : Config) (file : String)
    (m : Machine) (start : Bool) (node : List (String × String)) :
    handleTag lower config file m start "that" node =
      if start then .next (setState m { m.state with InTag := "that", Buffer := "" })
      else .next (closeContainer m "that") := by
  simp [handleTag]

theorem handleTag_template (lower : Char → Char) (config : Config) (file : String)
    (m : Machine) (start : Bool) (node : List (String × String)) :
    handleTag lower config file m start "template" node =
      if start then .next (setState m { m.state with InTag := "template", Buffer := "" })
      else .next (closeContainer m "template") := by
  simp [handleTag]

theorem handleTag_think (lower : Char → Char) (config : Config) (file : String)
    (m : Machine) (start : Bool) (node : List (String × String)) :
    handleTag lower config file m start "think" node =
      .next (setState m { m.state with Thinking := start }) := by
  simp [handleTag]

theorem handleTag_star (lower : Char → Char) (config : Config) (file : String)
    (m : Machine) (start : Bool) (node : List (String × String)) :
    handleTag lower config file m start "star" node =
      if start then
        .emit m "star"
          (if (if attr lower node "index" = "" then "1" else attr lower node "index") = "1" then
            "<star>"
           else "<star" ++
            (if attr lower node "index" = "" then "1" else attr lower node "index") ++ ">")
      else .next m := by
  simp [handleTag]

theorem handleTag_input (lower : Char → Char) (config : Config) (file : String)
    (m : Machine) (start : Bool) (node : List (String × String)) :
    handleTag lower config file m start "input" node =
      if start then
        .emit m "input"
          (if (if attr lower node "index" = "" then "1" else attr lower node "index") = "1" then
            "<input>"
           else "<input" ++
            (if attr lower node "index" = "" then "1" else attr lower node "index") ++ ">")
      else .next m := by
  simp [handleTag]

theorem handleTag_request (lower : Char → Char) (config : Config) (file : String)
    (m : Machine) (start : Bool) (node : List (String × String)) :
    handleTag lower config file m start "request" node =
      if start then
        .emit m "request"
          (if (if attr lower node "index" = "" then "1" else attr lower node "index") = "1" then
            "<input>"
           else "<input" ++
            (if attr lower node "index" = "" then "1" else attr lower node "index") ++ ">")
      else .next m := by
  simp [handleTag]

theorem handleTag_response (lower : Char → Char) (config : Config) (file : String)
    (m : Machine) (start : Bool) (node : List (String × String)) :
    handleTag lower config file m start "response" node =
      if start then
        .emit m "response"
          (if (if attr lower node "index" = "" then "1" else attr lower node "index") = "1" then
            "<reply>"
           else "<reply" ++
            (if attr lower node "index" = "" then "1" else attr lower node "index") ++ ">")
      else .next m := by
  simp [handleTag]

theorem handleTag_id (lower : Char → Char) (config : Config) (file : String)
    (m : Machine) (start : Bool) (node : List (String × String)) :
    handleTag lower config file m start "id" node =
      if start then .emit m "id" "<id>" else .next m := by
  simp [handleTag]

theorem handleTag_bot (lower : Char → Char) (config : Config) (file : String)
    (m : Machine) (start : Bool) (node : List (String × String)) :
    handleTag lower config file m start "bot" node =
      if start then
        .emit m "bot"
          (if attr lower node "name" ≠ "" then "<bot " ++ attr lower node "name" ++ ">" else "")
      else .next m := by
  simp [handleTag, OldGetTag]

theorem handleTag_get (lower : Char → Char) (config : Config) (file : String)
    (m : Machine) (start : Bool) (node : List (String × String)) :
    handleTag lower config file m start "get" node =
      if start then
        .emit m "get"
          (if attr lower node "name" ≠ "" then "<get " ++ attr lower node "name" ++ ">" else "")
      else .next m := by
  simp [handleTag, OldGetTag]

theorem handleTag_set (lower : Char → Char) (config : Config) (file : String)
    (m : Machine) (start : Bool) (node : List (String × String)) :
    handleTag lower config file m start "set" node =
      if start then
        .next (setState m { m.state with SetName := attr lower node "name", SetValue := "" })
      else if m.state.SetName = "" then .next m
      else .emit (closeSet config m).1 "set" (closeSet config m).2 := by
  simp [handleTag]

theorem handleTag_random (lower : Char → Char) (config : Config) (file : String)
    (m : Machine) (start : Bool) (node : List (String × String)) :
    handleTag lower config file m start "random" node =
      if start then
        if m.state.InRandom then
          .next (setState
            (warn m ("Embedded randoms at " ++ file ++ " in pattern " ++
              (deref m.heap m.state.Category).Pattern))
            { m.state with Tainted := true, InRandom := true, Random := [] })
        else .next (setState m { m.state with InRandom := true, Random := [] })
      else
        .emit (setState m { m.state with InRandom := false, Random := [] }) "random"
          ("\x7brandom\x7d" ++ Join (randomItems m.state.Random) "|" ++ "\x7b/random\x7d") := by
  cases start <;> by_cases h : m.state.InRandom = true <;> simp [handleTag, setState, warn, h]

theorem handleTag_condition (lower : Char → Char) (config : Config) (file : String)
    (m : Machine) (start : Bool) (node : List (String × String)) :
    handleTag lower config file m start "condition" node =
      if start then
        .next (setState m { m.state with
          InCondition := true, ConditionName := attr lower node "name", Conditions := [] })
      else
        .next (setState m { m.state with
          InCondition := false, ConditionName := "", Conditions := [] }) := by
  simp [handleTag]

theorem handleTag_li (lower : Char → Char) (config : Config) (file : String)
    (m : Machine) (start : Bool) (node : List (String × String)) :
    handleTag lower config file m start "li" node =
      if m.state.InRandom then
        if start then .next (setState m { m.state with Random := m.state.Random ++ [""] })
        else .next m
      else if m.state.InCondition then .next (conditionItem lower file m node)
      else .next m := by
  simp [handleTag]

theorem handleTag_srai (lower : Char → Char) (config : Config) (file : String)
    (m : Machine) (start : Bool) (node : List (String × String)) :
    handleTag lower config file m start "srai" node =
      if start then .emit m "srai" "\x7b@" else .emit m "srai" "\x7d" := by
  simp [handleTag]

theorem handleTag_sr (lower : Char → Char) (config : Config) (file : String)
    (m : Machine) (start : Bool) (node : List (String × String)) :
    handleTag lower config file m start "sr" node =
      if start then .emit m "sr" "<@>" else .emit m "sr" "" := by
  simp [handleTag]

theorem handleTag_person (lower : Char → Char) (config : Config) (file : String)
    (m : Machine) (start : Bool) (node : List (String × String)) :
    handleTag lower config file m start "person" node =
      if start then .emit m "person" "<person>" else .emit m "person" "" := by
  simp [handleTag]

theorem handleTag_uppercase (lower : Char → Char) (config : Config) (file : String)
    (m : Machine) (start : Bool) (node : List (String × String)) :
    handleTag lower config file m start "uppercase" node =
      if start then .emit m "uppercase" "\x7buppercase\x7d" else .emit m "uppercase" "\x7b/uppercase\x7d" := by
  simp [handleTag]

theorem handleTag_lowercase (lower : Char → Char) (config : Config) (file : String)
    (m : Machine) (start : Bool) (node : List (String × String)) :
    handleTag lower config file m start "lowercase" node =
      if start then .emit m "lowercase" "\x7blowercase\x7d" else .emit m "lowercase" "\x7b/lowercase\x7d" := by
  simp [handleTag]

theorem handleTag_formal (lower : Char → Char) (config : Config) (file : String)
    (m : Machine) (start : Bool) (node : List (String × String)) :
    handleTag lower config file m start "formal" node =
      if start then .emit m "formal" "\x7bformal\x7d" else .emit m "formal" "\x7b/formal\x7d" := by
  simp [handleTag]

theorem handleTag_sentence (lower : Char → Char) (config : Config) (file : String)
    (m : Machine) (start : Bool) (node : List (String × String)) :
    handleTag lower config file m start "sentence" node =
      if start then .emit m "sentence" "\x7bsentence\x7d" else .emit m "sentence" "\x7b/sentence\x7d" := by
  simp [handleTag]

theorem handleTag_date (lower : Char → Char) (config : Config) (file : String)
    (m : Machine) (start : Bool) (node : List (String × String)) :
    handleTag lower config file m start "date" node =
      if start then
        .emit m "date"
          ("<call>date" ++
            (if attr lower node "format" ≠ "" then " " ++ attr lower node "format" else "") ++
            "</call>")
      else .emit m "date" "" := by
  simp [handleTag]

theorem handleTag_size (lower : Char → Char) (config : Config) (file : String)
    (m : Machine) (start : Bool) (node : List (String × String)) :
    handleTag lower config file m start "size" node =
      if start then .emit m "size" "<call>size</call>" else .emit m "size" "" := by
  simp [handleTag]

theorem handleTag_getlike (lower : Char → Char) (config : Config) (file : String)
    (m : Machine) (start : Bool) (tag : String) (node : List (String × String))
    (hk : tag ∉ knownTags) (hg : Contains tag "get_" = true) :
    handleTag lower config file m start tag node =
      if start then
        .emit m
          (match OldGetTag tag with
            | some group => ("get", group)
            | none => (tag, attr lower node "name")).1
          (if (match OldGetTag tag with
                | some group => ("get", group)
                | none => (tag, attr lower node "name")).2 ≠ "" then
            "<" ++ (match OldGetTag tag with
                | some group => ("get", group)
                | none => (tag, attr lower node "name")).1 ++ " " ++
              (match OldGetTag tag with
                | some group => ("get", group)
                | none => (tag, attr lower node "name")).2 ++ ">"
           else "")
      else .next m := by
  simp only [knownTags, List.mem_cons, List.mem_singleton, not_or, List.not_mem_nil,
    not_false_eq_true, and_true] at hk
  obtain ⟨h1, h2, h3, h4, h5, h6, h7, h8, h9, h10, h11, h12, h13, h14, h15, h16, h17, h18,
    h19, h20, h21, h22, h23, h24, h25, h26, h27⟩ := hk
  unfold handleTag
  simp only [h1, h2, h3, h4, h5, h6, h7, h8, h9, h10, h11, h12, h13, h14, h15, h16, h17, h18,
    h19, h20, h21, h22, h23, h24, h25, h26, h27, hg, if_false, or_self, Bool.false_eq_true,
    decide_False, Bool.or_false, Bool.or_true, if_true]

theorem handleTag_unknown (lower : Char → Char) (config : Config) (file : String)
    (m : Machine) (start : Bool) (tag : String) (node : List (String × String))
    (hk : tag ∉ knownTags) (hg : Contains tag "get_" = false) :
    handleTag lower config file m start tag node = .emit m tag "" := by
  simp only [knownTags, List.mem_cons, List.mem_singleton, not_or, List.not_mem_nil,
    not_false_eq_true, and_true] at hk
  obtain ⟨h1, h2, h3, h4, h5, h6, h7, h8, h9, h10, h11, h12, h13, h14, h15, h16, h17, h18,
    h19, h20, h21, h22, h23, h24, h25, h26, h27⟩ := hk
  unfold handleTag
  simp only [h1, h2, h3, h4, h5, h6, h7, h8, h9, h10, h11, h12, h13, h14, h15, h16, h17, h18,
    h19, h20, h21, h22, h23, h24, h25, h26, h27, hg, if_false, or_self, Bool.false_eq_true,
    decide_False, Bool.or_false]

theorem tag_cases (tag : String) :
    tag ∈ knownTags ∨ (tag ∉ knownTags ∧ Contains tag "get_" = true) ∨
      (tag ∉ knownTags ∧ Contains tag "get_" = false) := by
  by_cases h : tag ∈ knownTags
  · exact Or.inl h
  · cases hc : Contains tag "get_"
    · exact Or.inr (Or.inr ⟨h, rfl⟩)
    · exact Or.inr (Or.inl ⟨h, rfl⟩)

/-! ## What the dispatch can do to the machine -/

set_option maxHeartbeats 1000000 in
theorem handleTag_machine_cases (lower : Char → Char) (config : Config) (file : String)
    (m : Machine) (start : Bool) (tag : String) (node : List (String × String)) :
    (handleTag lower config file m start tag node).machine = m
    ∨ (tag = "topic" ∧ start = true ∧
        (handleTag lower config file m start tag node).machine =
          setState m { m.state with Topic := attr lower node "name" })
    ∨ (tag = "category" ∧ start = true ∧
        (handleTag lower config file m start tag node).machine =
          { m with
            heap := m.heap ++ [NewCategory]
            state := { m.state with Category := m.heap.length, Tainted := false } })
    ∨ (tag = "category" ∧ start = false ∧
        (handleTag lower config file m start tag node).machine = closeCategory m)
    ∨ ((tag = "pattern" ∨ tag = "that" ∨ tag = "template") ∧ start = true ∧
        (handleTag lower config file m start tag node).machine =
          setState m { m.state with InTag := tag, Buffer := "" })
    ∨ ((tag = "pattern" ∨ tag = "that" ∨ tag = "template") ∧ start = false ∧
        (handleTag lower config file m start tag node).machine = closeContainer m tag)
    ∨ (tag = "think" ∧
        (handleTag lower config file m start tag node).machine =
          setState m { m.state with Thinking := start })
    ∨ (tag = "set" ∧ start = true ∧
        (handleTag lower config file m start tag node).machine =
          setState m { m.state with SetName := attr lower node "name", SetValue := "" })
    ∨ (tag = "set" ∧ start = false ∧ m.state.SetName ≠ "" ∧
        (handleTag lower config file m start tag node).machine =
          setState m { m.state with SetName := "", SetValue := "" })
    ∨ (tag = "random" ∧ start = true ∧ m.state.InRandom = true ∧
        (handleTag lower config file m start tag node).machine =
          setState
            (warn m ("Embedded randoms at " ++ file ++ " in pattern " ++
              (deref m.heap m.state.Category).Pattern))
            { m.state with Tainted := true, InRandom := true, Random := [] })
    ∨ (tag = "random" ∧ start = true ∧ m.state.InRandom = false ∧
        (handleTag lower config file m start tag node).machine =
          setState m { m.state with InRandom := true, Random := [] })
    ∨ (tag = "random" ∧ start = false ∧
        (handleTag lower config file m start tag node).machine =
          setState m { m.state with InRandom := false, Random := [] })
    ∨ (tag = "condition" ∧ start = true ∧
        (handleTag lower config file m start tag node).machine =
          setState m { m.state with
            InCondition := true, ConditionName := attr lower node "name", Conditions := [] })
    ∨ (tag = "condition" ∧ start = false ∧
        (handleTag lower config file m start tag node).machine =
          setState m { m.state with
            InCondition := false, ConditionName := "", Conditions := [] })
    ∨ (tag = "li" ∧ start = true ∧ m.state.InRandom = true ∧
        (handleTag lower config file m start tag node).machine =
          setState m { m.state with Random := m.state.Random ++ [""] })
    ∨ (tag = "li" ∧ m.state.InRandom = false ∧ m.state.InCondition = true ∧
        (handleTag lower config file m start tag node).machine =
          conditionItem lower file m node) := by
  rcases tag_cases tag with hk | ⟨hk, hg⟩ | ⟨hk, hg⟩
  · simp only [knownTags, List.mem_cons, List.mem_singleton, List.not_mem_nil, or_false] at hk
    rcases hk with rfl | rfl | rfl | rfl | rfl | rfl | rfl | rfl | rfl | rfl | rfl | rfl | rfl |
      rfl | rfl | rfl | rfl | rfl | rfl | rfl | rfl | rfl | rfl | rfl | rfl | rfl | rfl
    all_goals
      simp only [handleTag_aiml, handleTag_topic, handleTag_category, handleTag_pattern, handleTag_that, handleTag_template, handleTag_think, handleTag_star, handleTag_input, handleTag_request, handleTag_response, handleTag_id, handleTag_bot, handleTag_get, handleTag_set, handleTag_random, handleTag_condition, handleTag_li, handleTag_srai, handleTag_sr, handleTag_person, handleTag_uppercase, handleTag_lowercase, handleTag_formal, handleTag_sentence, handleTag_date, handleTag_size]
      cases start <;> simp [TagResult.machine, closeSet]
    all_goals (split_ifs <;> simp_all [TagResult.machine, setState])
  · rw [handleTag_getlike _ _ _ _ _ _ _ hk hg]
    cases start <;> simp [TagResult.machine]
  · rw [handleTag_unknown _ _ _ _ _ _ _ hk hg]
    simp [TagResult.machine]


theorem conditionItem_frame (lower : Char → Char) (file : String) (m : Machine)
    (node : List (String × String)) :
    (conditionItem lower file m node).state.Tainted = m.state.Tainted ∧
    (conditionItem lower file m node).state.InRandom = m.state.InRandom ∧
    (∃ w, (conditionItem lower file m node).warnings = m.warnings ++ w) := by
  unfold conditionItem
  simp only []
  split_ifs <;> simp [setState, warn]

theorem handleTag_frame (lower : Char → Char) (config : Config) (file : String)
    (m : Machine) (start : Bool) (tag : String) (node : List (String × String)) :
    (m.state.Tainted = true → ¬ (tag = "category" ∧ start = true) →
      (handleTag lower config file m start tag node).machine.state.Tainted = true) ∧
    (m.state.InRandom = true → ¬ (tag = "random" ∧ start = false) →
      (handleTag lower config file m start tag node).machine.state.InRandom = true) ∧
    (∃ w, (handleTag lower config file m start tag node).machine.warnings = m.warnings ++ w) := by
  have hci := conditionItem_frame lower file m node
  rcases handleTag_machine_cases lower config file m start tag node with
    h | ⟨_, _, h⟩ | ⟨ht, hs, h⟩ | ⟨_, _, h⟩ | ⟨_, _, h⟩ | ⟨_, _, h⟩ | ⟨_, h⟩ | ⟨_, _, h⟩ |
    ⟨_, _, _, h⟩ | ⟨_, _, _, h⟩ | ⟨_, _, _, h⟩ | ⟨ht, hs, h⟩ | ⟨_, _, h⟩ | ⟨_, _, h⟩ |
    ⟨_, _, _, h⟩ | ⟨_, _, _, h⟩
  all_goals rw [h]
  all_goals
    refine ⟨?_, ?_, ?_⟩ <;>
    first
    | (intro h1 h2; simp_all [setState, warn, closeCategory, closeContainer]; done)
    | (simp_all [setState, warn, closeCategory, closeContainer]; done)
    | (simp only [closeCategory]; split_ifs <;> simp_all [setState, warn])

/-! ## Running the token loop -/

theorem run_cons (lower : Char → Char) (config : Config) (file : String)
    (m m1 : Machine) (token : Token) (rest : List Token)
    (h : step lower config file m token = some m1) :
    run lower config file m (token :: rest) = run lower config file m1 rest := by
  simp [run, h]

theorem run_nil (lower : Char → Char) (config : Config) (file : String) (m : Machine) :
    run lower config file m [] = some m := rfl

/-! ## The routing code -/

theorem routeText_handled (m : Machine) (token : Token) (tag newText : String)
    (h : newText ≠ "") :
    routeText m token tag newText =
      if m.state.SetName ≠ "" then
        setState m { m.state with SetValue := m.state.SetValue ++ newText }
      else if m.state.InRandom then
        setState m { m.state with
          Random := appendLast
            (if m.state.Random.length = 0 then m.state.Random ++ [""] else m.state.Random)
            newText }
      else if m.state.InCondition then
        if m.state.Conditions.length > 0 then
          setState m { m.state with Conditions := appendLast m.state.Conditions newText }
        else m
      else setState m { m.state with Buffer := m.state.Buffer ++ newText } := by
  simp [routeText, h]

theorem routeText_frame (m : Machine) (token : Token) (tag text : String) :
    (routeText m token tag text).state.Tainted = m.state.Tainted ∧
    (routeText m token tag text).state.InRandom = m.state.InRandom ∧
    (routeText m token tag text).parsed = m.parsed ∧
    (routeText m token tag text).heap = m.heap ∧
    (∃ w, (routeText m token tag text).warnings = m.warnings ++ w) := by
  unfold routeText
  simp only []
  split_ifs <;> simp [setState, warn]

/-! ## Invariants of one step and of a run -/

theorem handleText_frame (m m1 : Machine) (node : String)
    (h : handleText m node = some m1) :
    m1.state.Tainted = m.state.Tainted ∧ m1.state.InRandom = m.state.InRandom ∧
    m1.warnings = m.warnings := by
  unfold handleText at h
  simp only [] at h
  split_ifs at h <;> simp at h <;> subst h <;> simp [setState]

theorem step_tag (lower : Char → Char) (config : Config) (file : String)
    (m : Machine) (token : Token) (start : Bool) (tag : String) (node : List (String × String)) :
    (match handleTag lower config file m start tag node with
      | .next m1 => some m1
      | .emit m1 tag1 newText => some (routeText m1 token tag1 newText)) =
    some (match handleTag lower config file m start tag node with
      | .next m1 => m1
      | .emit m1 tag1 newText => routeText m1 token tag1 newText) := by
  cases handleTag lower config file m start tag node <;> rfl

theorem tag_step_frame (lower : Char → Char) (config : Config) (file : String)
    (m : Machine) (token : Token) (start : Bool) (tag : String) (node : List (String × String)) :
    (m.state.Tainted = true → ¬ (tag = "category" ∧ start = true) →
      (match handleTag lower config file m start tag node with
        | .next m1 => m1
        | .emit m1 tag1 newText => routeText m1 token tag1 newText).state.Tainted = true) ∧
    (m.state.InRandom = true → ¬ (tag = "random" ∧ start = false) →
      (match handleTag lower config file m start tag node with
        | .next m1 => m1
        | .emit m1 tag1 newText => routeText m1 token tag1 newText).state.InRandom = true) ∧
    (∃ w, (match handleTag lower config file m start tag node with
        | .next m1 => m1
        | .emit m1 tag1 newText => routeText m1 token tag1 newText).warnings =
          m.warnings ++ w) := by
  have hf := handleTag_frame lower config file m start tag node
  cases hr : handleTag lower config file m start tag node with
  | next m1 =>
    rw [hr] at hf
    exact hf
  | emit m1 tag1 newText =>
    rw [hr] at hf
    obtain ⟨h1, h2, w1, h3⟩ := hf
    obtain ⟨r1, r2, -, -, w2, r3⟩ := routeText_frame m1 token tag1 newText
    refine ⟨fun a b => ?_, fun a b => ?_, w1 ++ w2, ?_⟩
    · show (routeText m1 token tag1 newText).state.Tainted = true
      rw [r1]; exact h1 a b
    · show (routeText m1 token tag1 newText).state.InRandom = true
      rw [r2]; exact h2 a b
    · show (routeText m1 token tag1 newText).warnings = m.warnings ++ (w1 ++ w2)
      rw [r3]
      show m1.warnings ++ w2 = _
      have h3 : m1.warnings = m.warnings ++ w1 := h3
      rw [h3, List.append_assoc]

theorem step_frame (lower : Char → Char) (config : Config) (file : String)
    (m m1 : Machine) (token : Token) (h : step lower config file m token = some m1) :
    (m.state.Tainted = true → isStart lower "category" token = false →
      m1.state.Tainted = true) ∧
    (m.state.InRandom = true → isEnd lower "random" token = false →
      m1.state.InRandom = true) ∧
    (∃ w, m1.warnings = m.warnings ++ w) := by
  cases token with
  | Other =>
    simp only [step, Option.some.injEq] at h
    subst h
    exact ⟨fun a _ => a, fun a _ => a, [], by simp⟩
  | CharData node =>
    obtain ⟨h1, h2, h3⟩ := handleText_frame m m1 node h
    exact ⟨fun a _ => by rw [h1]; exact a, fun a _ => by rw [h2]; exact a, [], by simp [h3]⟩
  | StartElement name attrs =>
    simp only [step, step_tag, Option.some.injEq] at h
    subst h
    obtain ⟨h1, h2, h3⟩ := tag_step_frame lower config file m (.StartElement name attrs) true
      (ToLower lower name) attrs
    refine ⟨fun a b => h1 a ?_, fun a _ => h2 a (by simp), h3⟩
    simpa [isStart] using b
  | EndElement name =>
    simp only [step, step_tag, Option.some.injEq] at h
    subst h
    obtain ⟨h1, h2, h3⟩ := tag_step_frame lower config file m (.EndElement name) false
      (ToLower lower name) []
    refine ⟨fun a _ => h1 a (by simp), fun a b => h2 a ?_, h3⟩
    simpa [isEnd] using b

theorem run_tainted (lower : Char → Char) (config : Config) (file : String)
    (tokens : List Token) :
    ∀ (m m1 : Machine), m.state.Tainted = true →
      (∀ t ∈ tokens, isStart lower "category" t = false) →
      run lower config file m tokens = some m1 → m1.state.Tainted = true := by
  induction tokens with
  | nil =>
    intro m m1 ht _ h
    simp only [run, Option.some.injEq] at h
    subst h
    exact ht
  | cons t rest ih =>
    intro m m1 ht hall h
    cases hs : step lower config file m t with
    | none => simp [run, hs] at h
    | some m2 =>
      rw [run_cons _ _ _ _ _ _ _ hs] at h
      exact ih m2 m1 ((step_frame _ _ _ _ _ _ hs).1 ht (hall t (List.mem_cons_self _ _)))
        (fun x hx => hall x (List.mem_cons_of_mem _ hx)) h

theorem run_inRandom (lower : Char → Char) (config : Config) (file : String)
    (tokens : List Token) :
    ∀ (m m1 : Machine), m.state.InRandom = true →
      (∀ t ∈ tokens, isEnd lower "random" t = false) →
      run lower config file m tokens = some m1 → m1.state.InRandom = true := by
  induction tokens with
  | nil =>
    intro m m1 ht _ h
    simp only [run, Option.some.injEq] at h
    subst h
    exact ht
  | cons t rest ih =>
    intro m m1 ht hall h
    cases hs : step lower config file m t with
    | none => simp [run, hs] at h
    | some m2 =>
      rw [run_cons _ _ _ _ _ _ _ hs] at h
      exact ih m2 m1 ((step_frame _ _ _ _ _ _ hs).2.1 ht (hall t (List.mem_cons_self _ _)))
        (fun x hx => hall x (List.mem_cons_of_mem _ hx)) h

theorem run_warnings (lower : Char → Char) (config : Config) (file : String)
    (tokens : List Token) :
    ∀ (m m1 : Machine), run lower config file m tokens = some m1 →
      ∃ w, m1.warnings = m.warnings ++ w := by
  induction tokens with
  | nil =>
    intro m m1 h
    simp only [run, Option.some.injEq] at h
    subst h
    exact ⟨[], by simp⟩
  | cons t rest ih =>
    intro m m1 h
    cases hs : step lower config file m t with
    | none => simp [run, hs] at h
    | some m2 =>
      rw [run_cons _ _ _ _ _ _ _ hs] at h
      obtain ⟨w1, h1⟩ := (step_frame _ _ _ _ _ _ hs).2.2
      obtain ⟨w2, h2⟩ := ih m2 m1 h
      exact ⟨w1 ++ w2, by rw [h2, h1, List.append_assoc]⟩

theorem run_append (lower : Char → Char) (config : Config) (file : String)
    (xs ys : List Token) :
    ∀ (m m2 : Machine), run lower config file m (xs ++ ys) = some m2 →
      ∃ m1, run lower config file m xs = some m1 ∧ run lower config file m1 ys = some m2 := by
  induction xs with
  | nil =>
    intro m m2 h
    exact ⟨m, rfl, h⟩
  | cons t rest ih =>
    intro m m2 h
    cases hs : step lower config file m t with
    | none => simp [run, hs] at h
    | some m3 =>
      rw [List.cons_append, run_cons _ _ _ _ _ _ _ hs] at h
      obtain ⟨m1, h1, h2⟩ := ih m3 m2 h
      exact ⟨m1, by rw [run_cons _ _ _ _ _ _ _ hs]; exact h1, h2⟩

/-! ## The set construct -/

/-- The set construct with a plain body: `<set name="n">b</set>` outside a random
and a condition. -/
theorem run_set_text_close (lower : Char → Char) (config : Config)
    (file : String) (m : Machine) (opening closing : String) (attrs : List (String × String))
    (n b : String)
    (hopen : ToLower lower opening = "set") (hclose : ToLower lower closing = "set")
    (hattr : attr lower attrs "name" = n)
    (hn : n ≠ "") (hname : n ≠ "name") (htopic : n ≠ "topic")
    (hb : TrimSpace b ≠ "") (hformal : TrimSpace b ≠ "\x7bformal\x7d\x7b/formal\x7d")
    (hrandom : m.state.InRandom = false) (hcond : m.state.InCondition = false) :
    run lower config file m
        [.StartElement opening attrs, .CharData b, .EndElement closing] =
      some (setState m { m.state with
        SetName := "", SetValue := "",
        Buffer := m.state.Buffer ++
          (if m.state.Thinking then "<set " ++ n ++ "=" ++ TrimSpace b ++ ">"
           else "<set " ++ n ++ "=" ++ TrimSpace b ++ ">" ++ "<get " ++ n ++ ">") }) := by
  subst hattr
  have e1 : step lower config file m (.StartElement opening attrs) =
      some (setState m { m.state with SetName := attr lower attrs "name", SetValue := "" }) := by
    simp [step, hopen, handleTag_set]
  have e2 : step lower config file
      (setState m { m.state with SetName := attr lower attrs "name", SetValue := "" })
      (.CharData b) =
      some (setState m { m.state with
        SetName := attr lower attrs "name", SetValue := TrimSpace b }) := by
    simp [step, handleText, hb, hn, setState]
  by_cases ht : m.state.Thinking = true
  · have e3 : step lower config file
        (setState m { m.state with
          SetName := attr lower attrs "name", SetValue := TrimSpace b })
        (.EndElement closing) =
        some (setState m { m.state with
          SetName := "", SetValue := "",
          Buffer := m.state.Buffer ++
            ("<set " ++ attr lower attrs "name" ++ "=" ++ TrimSpace b ++ ">") }) := by
      have hne := set_directive_ne_empty (attr lower attrs "name") (TrimSpace b) ""
      simp only [String.append_empty] at hne
      simp [step, hclose, handleTag_set, closeSet, setState, hn, hname, htopic, hb, hformal,
        ht, routeText_handled, hne, hrandom, hcond]
    rw [run_cons _ _ _ _ _ _ _ e1, run_cons _ _ _ _ _ _ _ e2, run_cons _ _ _ _ _ _ _ e3, run_nil]
    simp [ht]
  · have e3 : step lower config file
        (setState m { m.state with
          SetName := attr lower attrs "name", SetValue := TrimSpace b })
        (.EndElement closing) =
        some (setState m { m.state with
          SetName := "", SetValue := "",
          Buffer := m.state.Buffer ++
            ("<set " ++ attr lower attrs "name" ++ "=" ++ TrimSpace b ++ ">" ++
              "<get " ++ attr lower attrs "name" ++ ">") }) := by
      have hne := set_directive_ne_empty (attr lower attrs "name") (TrimSpace b)
        ("<get " ++ attr lower attrs "name" ++ ">")
      simp only [← String.append_assoc] at hne
      simp [step, hclose, handleTag_set, closeSet, setState, hn, hname, htopic, hb, hformal,
        ht, routeText_handled, hne, hrandom, hcond, ← String.append_assoc]
    rw [run_cons _ _ _ _ _ _ _ e1, run_cons _ _ _ _ _ _ _ e2, run_cons _ _ _ _ _ _ _ e3, run_nil]
    simp [ht]

/-! ## Single steps used by the claims -/

/-- What a set close with a name emits: the value of `newText`. -/
theorem closeSet_text (config : Config) (m : Machine) :
    ∃ v : String, v ≠ "" ∧ (m.state.SetValue = "" → v = "<undef>") ∧
      (m.state.SetName = "name" →
        v = if m.state.SetValue = "" then "<undef>"
            else "\x7bformal\x7d" ++ m.state.SetValue ++ "\x7b/formal\x7d") ∧
      (closeSet config m).2 =
        "<set " ++
          (if m.state.SetName = "topic" ∧ config.RealTopics = false then "alicetopic"
           else m.state.SetName) ++ "=" ++ v ++ ">" ++
          (if m.state.Thinking then ""
           else "<get " ++
            (if m.state.SetName = "topic" ∧ config.RealTopics = false then "alicetopic"
             else m.state.SetName) ++ ">") := by
  have hw := formal_wrap_eq_iff m.state.SetValue
  have hwne : "\x7bformal\x7d" ++ m.state.SetValue ++ "\x7b/formal\x7d" ≠ "" := by
    rw [String.append_assoc]
    exact string_append_ne_empty_left _ _ (by decide)
  by_cases hname : m.state.SetName = "name"
  · by_cases hv : m.state.SetValue = ""
    · refine ⟨"<undef>", by decide, fun _ => rfl, fun _ => by simp [hv], ?_⟩
      cases ht : m.state.Thinking <;> simp [closeSet, hname, hv, ht]
    · refine ⟨"\x7bformal\x7d" ++ m.state.SetValue ++ "\x7b/formal\x7d", hwne,
        fun h => absurd h hv, fun _ => by simp [hv], ?_⟩
      cases ht : m.state.Thinking <;> simp [closeSet, hname, hv, ht, hw, hwne]
  · have hN : (if m.state.SetName = "topic" ∧ config.RealTopics = false then "alicetopic"
        else m.state.SetName) ≠ "name" := by
      split_ifs
      · decide
      · exact hname
    by_cases hv : m.state.SetValue = "" ∨ m.state.SetValue = "\x7bformal\x7d\x7b/formal\x7d"
    · refine ⟨"<undef>", by decide, fun _ => rfl, fun h => absurd h hname, ?_⟩
      cases ht : m.state.Thinking <;> cases hr : config.RealTopics <;>
        by_cases htp : m.state.SetName = "topic" <;>
        simp_all [closeSet]
    · have hv1 : m.state.SetValue ≠ "" := fun h => hv (Or.inl h)
      refine ⟨m.state.SetValue, hv1, fun h => absurd h hv1, fun h => absurd h hname, ?_⟩
      cases ht : m.state.Thinking <;> cases hr : config.RealTopics <;>
        by_cases htp : m.state.SetName = "topic" <;>
        simp_all [closeSet]

theorem step_random_open (lower : Char → Char) (config : Config) (file : String)
    (m : Machine) (name : String) (attrs : List (String × String))
    (h : ToLower lower name = "random") :
    step lower config file m (.StartElement name attrs) =
      some (if m.state.InRandom then
        setState
          (warn m ("Embedded randoms at " ++ file ++ " in pattern " ++
            (deref m.heap m.state.Category).Pattern))
          { m.state with Tainted := true, InRandom := true, Random := [] }
      else setState m { m.state with InRandom := true, Random := [] }) := by
  simp only [step, h, handleTag_random, if_true]
  split_ifs <;> rfl

theorem step_category_close_tainted (lower : Char → Char) (config : Config) (file : String)
    (m : Machine) (name : String) (h : ToLower lower name = "category")
    (ht : m.state.Tainted = true) :
    step lower config file m (.EndElement name) = some m := by
  simp [step, h, handleTag_category, closeCategory, ht]

theorem run_single (lower : Char → Char) (config : Config) (file : String)
    (m m1 : Machine) (token : Token) (h : run lower config file m [token] = some m1) :
    step lower config file m token = some m1 := by
  cases hs : step lower config file m token with
  | none => simp [run, hs] at h
  | some m2 =>
    rw [run_cons _ _ _ _ _ _ _ hs, run_nil] at h
    rw [← h]

/-! ## The routing code in full -/

theorem step_of_emit (lower : Char → Char) (config : Config) (file : String)
    (m m1 : Machine) (token : Token) (tag1 text : String)
    (h : dispatch lower config file m token = some (.emit m1 tag1 text)) :
    step lower config file m token = some (routeText m1 token tag1 text) := by
  cases token with
  | StartElement name attrs =>
    simp only [dispatch, Option.some.injEq] at h
    simp [step, h]
  | EndElement name =>
    simp only [dispatch, Option.some.injEq] at h
    simp [step, h]
  | CharData _ => simp [dispatch] at h
  | Other => simp [dispatch] at h

theorem step_of_next (lower : Char → Char) (config : Config) (file : String)
    (m m1 : Machine) (token : Token)
    (h : dispatch lower config file m token = some (.next m1)) :
    step lower config file m token = some m1 := by
  cases token with
  | StartElement name attrs =>
    simp only [dispatch, Option.some.injEq] at h
    simp [step, h]
  | EndElement name =>
    simp only [dispatch, Option.some.injEq] at h
    simp [step, h]
  | CharData _ => simp [dispatch] at h
  | Other => simp [dispatch] at h

/-- The routing code in full: where the text goes and which warning is given. -/
theorem routeText_spec (m : Machine) (token : Token) (tag text : String) :
    (routeText m token tag text).state =
      (if m.state.SetName ≠ "" then
        { m.state with
          SetValue := m.state.SetValue ++ (if text = "" then rawXML token else text) }
      else if m.state.InRandom = true then
        { m.state with
          Random := appendLast (if m.state.Random = [] then [""] else m.state.Random)
            (if text = "" then rawXML token else text) }
      else if m.state.InCondition = true then
        (if m.state.Conditions ≠ [] then
          { m.state with
            Conditions := appendLast m.state.Conditions
              (if text = "" then rawXML token else text) }
        else m.state)
      else
        { m.state with
          Buffer := m.state.Buffer ++ (if text = "" then rawXML token else text) })
    ∧ (routeText m token tag text).parsed = m.parsed
    ∧ (routeText m token tag text).heap = m.heap
    ∧ (routeText m token tag text).warnings =
        m.warnings ++
          (if text ≠ "" ∨ tag ∈ IgnoreTags then []
           else ["Unhandled AIML tag: " ++ rawXML token]) := by
  unfold routeText
  by_cases h1 : text = "" <;> by_cases h2 : tag ∈ IgnoreTags <;>
    by_cases h3 : m.state.SetName = "" <;> by_cases h4 : m.state.InRandom = true <;>
    by_cases h5 : m.state.InCondition = true <;> by_cases h6 : m.state.Conditions = [] <;>
    by_cases h7 : m.state.Random = [] <;>
    simp [h1, h2, h3, h4, h5, h6, h7, setState, warn, List.length_pos, List.length_eq_zero]

theorem rawAttrs_eq_join (attrs : List (String × String)) :
    rawAttrs attrs = Join (attrs.map (fun kv => kv.1 ++ "=\"" ++ kv.2 ++ "\"")) " " := by
  induction attrs with
  | nil => rfl
  | cons a rest ih =>
    cases rest with
    | nil => rfl
    | cons b rest1 =>
      obtain ⟨k, v⟩ := a
      obtain ⟨k1, v1⟩ := b
      simp only [rawAttrs, List.map_cons, Join] at ih ⊢
      rw [ih]

/-- A simple-substitution tag leaves the machine to the routing code as it found
it. -/
theorem substitution_outcome (lower : Char → Char) (config : Config) (file : String)
    (m : Machine) (start : Bool) (tag : String) (node : List (String × String))
    (h : tag ∈ substitutionTags) :
    handleTag lower config file m start tag node = .next m ∨
      ∃ text, handleTag lower config file m start tag node = .emit m tag text := by
  simp only [substitutionTags, List.mem_cons, List.mem_singleton, List.not_mem_nil,
    or_false] at h
  rcases h with rfl | rfl | rfl | rfl | rfl | rfl | rfl | rfl | rfl | rfl | rfl | rfl | rfl |
    rfl | rfl | rfl
  all_goals
    simp only [handleTag_star, handleTag_input, handleTag_request, handleTag_response,
      handleTag_id, handleTag_bot, handleTag_get, handleTag_srai, handleTag_sr,
      handleTag_person, handleTag_uppercase, handleTag_lowercase, handleTag_formal,
      handleTag_sentence, handleTag_date, handleTag_size]
    cases start <;> simp

/-! ## Properties preserved by every step -/

theorem step_preserves (lower : Char → Char) (config : Config) (file : String)
    (P : Machine → Prop)
    (htext : ∀ (m m1 : Machine) (node : String), P m → handleText m node = some m1 → P m1)
    (htag : ∀ (m : Machine) (start : Bool) (tag : String) (node : List (String × String)),
      P m → P (handleTag lower config file m start tag node).machine)
    (hroute : ∀ (m : Machine) (token : Token) (tag text : String),
      P m → P (routeText m token tag text))
    (m m1 : Machine) (token : Token) (hm : P m)
    (h : step lower config file m token = some m1) : P m1 := by
  cases token with
  | Other =>
    simp only [step, Option.some.injEq] at h
    exact h ▸ hm
  | CharData node => exact htext m m1 node hm h
  | StartElement name attrs =>
    have ht := htag m true (ToLower lower name) attrs hm
    simp only [step] at h
    cases hr : handleTag lower config file m true (ToLower lower name) attrs with
    | next m2 =>
      rw [hr] at h ht
      simp only [Option.some.injEq] at h
      exact h ▸ ht
    | emit m2 tag1 text =>
      rw [hr] at h ht
      simp only [Option.some.injEq] at h
      exact h ▸ hroute m2 _ tag1 text ht
  | EndElement name =>
    have ht := htag m false (ToLower lower name) [] hm
    simp only [step] at h
    cases hr : handleTag lower config file m false (ToLower lower name) [] with
    | next m2 =>
      rw [hr] at h ht
      simp only [Option.some.injEq] at h
      exact h ▸ ht
    | emit m2 tag1 text =>
      rw [hr] at h ht
      simp only [Option.some.injEq] at h
      exact h ▸ hroute m2 _ tag1 text ht

theorem run_preserves (lower : Char → Char) (config : Config) (file : String)
    (P : Machine → Prop)
    (hstep : ∀ (m m1 : Machine) (token : Token), P m →
      step lower config file m token = some m1 → P m1)
    (tokens : List Token) :
    ∀ (m m1 : Machine), P m → run lower config file m tokens = some m1 → P m1 := by
  induction tokens with
  | nil =>
    intro m m1 hm h
    simp only [run, Option.some.injEq] at h
    exact h ▸ hm
  | cons t rest ih =>
    intro m m1 hm h
    cases hs : step lower config file m t with
    | none => simp [run, hs] at h
    | some m2 =>
      rw [run_cons _ _ _ _ _ _ _ hs] at h
      exact ih m2 m1 (hstep m m2 t hm hs) h

theorem handleText_cases (m m1 : Machine) (node : String)
    (h : handleText m node = some m1) :
    m1.parsed = m.parsed ∧ m1.heap = m.heap ∧ m1.warnings = m.warnings ∧
    m1.state.Topic = m.state.Topic ∧ m1.state.Category = m.state.Category := by
  unfold handleText at h
  simp only [] at h
  split_ifs at h <;> simp at h <;> subst h <;> simp [setState]

theorem routeText_fields (m : Machine) (token : Token) (tag text : String) :
    (routeText m token tag text).state.Topic = m.state.Topic ∧
    (routeText m token tag text).state.Category = m.state.Category := by
  rw [(routeText_spec m token tag text).1]
  split_ifs <;> exact ⟨rfl, rfl⟩

/-- The pointer to the record in progress always points into the heap. -/
theorem step_valid (lower : Char → Char) (config : Config) (file : String)
    (m m1 : Machine) (token : Token) (hm : m.state.Category < m.heap.length)
    (h : step lower config file m token = some m1) :
    m1.state.Category < m1.heap.length := by
  refine step_preserves lower config file (fun x => x.state.Category < x.heap.length)
    ?_ ?_ ?_ m m1 token hm h
  · intro a b node ha hb
    obtain ⟨-, h2, -, -, h5⟩ := handleText_cases a b node hb
    show b.state.Category < b.heap.length
    rw [h2, h5]; exact ha
  · intro a start tag node ha
    show (handleTag lower config file a start tag node).machine.state.Category <
      (handleTag lower config file a start tag node).machine.heap.length
    have hci : (conditionItem lower file a node).state.Category = a.state.Category ∧
        (conditionItem lower file a node).heap = a.heap := by
      unfold conditionItem
      simp only []
      split_ifs <;> simp [setState, warn]
    rcases handleTag_machine_cases lower config file a start tag node with
      e | ⟨_, _, e⟩ | ⟨_, _, e⟩ | ⟨_, _, e⟩ | ⟨_, _, e⟩ | ⟨_, _, e⟩ | ⟨_, e⟩ | ⟨_, _, e⟩ |
      ⟨_, _, _, e⟩ | ⟨_, _, _, e⟩ | ⟨_, _, _, e⟩ | ⟨_, _, e⟩ | ⟨_, _, e⟩ | ⟨_, _, e⟩ |
      ⟨_, _, _, e⟩ | ⟨_, _, _, e⟩
    all_goals rw [e]
    all_goals
      first
      | exact ha
      | (simp [setState, warn]; done)
      | (simp [setState, warn, ha]; done)
      | (simp only [closeCategory]; split_ifs <;> simp [store, ha])
      | (simp only [closeContainer]; simp [store, ha])
      | (rw [hci.1, hci.2]; exact ha)
  · intro a token tag text ha
    show (routeText a token tag text).state.Category < (routeText a token tag text).heap.length
    rw [(routeText_fields a token tag text).2, (routeText_spec a token tag text).2.2.1]
    exact ha

theorem processAIML_valid (lower : Char → Char) (config : Config) (file : String)
    (tokens : List Token) (m : Machine)
    (h : processAIML lower config file tokens = some m) :
    m.state.Category < m.heap.length :=
  run_preserves lower config file (fun x => x.state.Category < x.heap.length)
    (fun a b t ha hb => step_valid lower config file a b t ha hb) tokens NewAIMLState m
    (by decide) h

theorem deref_store_same (heap : List Category) (p : Nat) (c : Category)
    (h : p < heap.length) : deref (store heap p c) p = c := by
  simp [deref, store, List.getD_eq_getElem?_getD, h]

theorem deref_store_other (heap : List Category) (p q : Nat) (c : Category)
    (h : q ≠ p) : deref (store heap p c) q = deref heap q := by
  simp [deref, store, List.getD_eq_getElem?_getD, List.getElem?_set_ne (Ne.symm h)]

theorem replaceUnderscore_of_not_contains (s : String) (h : Contains s "_" = false) :
    replaceUnderscore s = s := by
  have key : ∀ l : List Char, containsL l ['_'] = false →
      l.map (fun c => if c = '_' then '*' else c) = l := by
    intro l
    induction l with
    | nil => intro _; rfl
    | cons c r ih =>
      intro hc
      simp only [containsL, beginsWith, Bool.and_true, Bool.or_eq_false_iff,
        beq_eq_false_iff_ne, ne_eq] at hc
      simp [hc.1, ih hc.2]
  apply String.ext
  exact key s.data h

theorem appendTopic_keys (topics : List (String × List Nat)) (topic : String) (p : Nat) :
    ∀ kv ∈ appendTopic topics topic p, kv.1 = topic ∨ ∃ kv1 ∈ topics, kv1.1 = kv.1 := by
  induction topics with
  | nil =>
    intro kv h
    simp only [appendTopic, List.mem_singleton] at h
    exact Or.inl (by rw [h])
  | cons a rest ih =>
    intro kv h
    obtain ⟨k, ps⟩ := a
    simp only [appendTopic] at h
    split_ifs at h with hk
    · simp only [List.mem_cons] at h
      rcases h with h | h
      · exact Or.inr ⟨(k, ps), List.mem_cons_self _ _, by rw [h]⟩
      · exact Or.inr ⟨kv, List.mem_cons_of_mem _ h, rfl⟩
    · simp only [List.mem_cons] at h
      rcases h with h | h
      · exact Or.inr ⟨(k, ps), List.mem_cons_self _ _, by rw [h]⟩
      · rcases ih kv h with h1 | ⟨kv1, h1, h2⟩
        · exact Or.inl h1
        · exact Or.inr ⟨kv1, List.mem_cons_of_mem _ h1, h2⟩

/-- Without real topics the topic never changes and every key of the result set
is the topic. -/
theorem step_topic_random (lower : Char → Char) (config : Config) (file : String)
    (hreal : config.RealTopics = false) (m m1 : Machine) (token : Token)
    (hm : m.state.Topic = "random" ∧ ∀ kv ∈ m.parsed.Topics, kv.1 = "random")
    (h : step lower config file m token = some m1) :
    m1.state.Topic = "random" ∧ ∀ kv ∈ m1.parsed.Topics, kv.1 = "random" := by
  refine step_preserves lower config file
    (fun x => x.state.Topic = "random" ∧ ∀ kv ∈ x.parsed.Topics, kv.1 = "random")
    ?_ ?_ ?_ m m1 token hm h
  · intro a b node ha hb
    obtain ⟨h1, -, -, h4, -⟩ := handleText_cases a b node hb
    show b.state.Topic = "random" ∧ ∀ kv ∈ b.parsed.Topics, kv.1 = "random"
    rw [h1, h4]; exact ha
  · intro a start tag node ha
    show (handleTag lower config file a start tag node).machine.state.Topic = "random" ∧
      ∀ kv ∈ (handleTag lower config file a start tag node).machine.parsed.Topics,
        kv.1 = "random"
    have hci : (conditionItem lower file a node).state.Topic = a.state.Topic ∧
        (conditionItem lower file a node).parsed = a.parsed := by
      unfold conditionItem
      simp only []
      split_ifs <;> simp [setState, warn]
    have hcc : (closeCategory a).state.Topic = "random" ∧
        ∀ kv ∈ (closeCategory a).parsed.Topics, kv.1 = "random" := by
      unfold closeCategory
      simp only []
      split_ifs
      · exact ha
      · refine ⟨ha.1, fun kv hkv => ?_⟩
        rcases appendTopic_keys _ _ _ kv hkv with h1 | ⟨kv1, h1, h2⟩
        · rw [h1]; exact ha.1
        · rw [← h2]; exact ha.2 kv1 h1
      · refine ⟨ha.1, fun kv hkv => ?_⟩
        rcases appendTopic_keys _ _ _ kv hkv with h1 | ⟨kv1, h1, h2⟩
        · rw [h1]; exact ha.1
        · rw [← h2]; exact ha.2 kv1 h1
    rcases handleTag_machine_cases lower config file a start tag node with
      e | ⟨ht, _, _⟩ | ⟨_, _, e⟩ | ⟨_, _, e⟩ | ⟨_, _, e⟩ | ⟨_, _, e⟩ | ⟨_, e⟩ | ⟨_, _, e⟩ |
      ⟨_, _, _, e⟩ | ⟨_, _, _, e⟩ | ⟨_, _, _, e⟩ | ⟨_, _, e⟩ | ⟨_, _, e⟩ | ⟨_, _, e⟩ |
      ⟨_, _, _, e⟩ | ⟨_, _, _, e⟩
    · rw [e]; exact ha
    · subst ht
      rw [handleTag_topic]
      simpa [hreal, TagResult.machine] using ha
    · rw [e]; exact ha
    · rw [e]; exact hcc
    · rw [e]; exact ha
    · rw [e]; exact ha
    · rw [e]; exact ha
    · rw [e]; exact ha
    · rw [e]; exact ha
    · rw [e]; exact ha
    · rw [e]; exact ha
    · rw [e]; exact ha
    · rw [e]; exact ha
    · rw [e]; exact ha
    · rw [e]; exact ha
    · rw [e, hci.1, hci.2]; exact ha
  · intro a token tag text ha
    show (routeText a token tag text).state.Topic = "random" ∧
      ∀ kv ∈ (routeText a token tag text).parsed.Topics, kv.1 = "random"
    rw [(routeText_fields a token tag text).1, (routeText_spec a token tag text).2.1]
    exact ha

/-! ## The serializer: character class and loops -/

theorem isAlpha_eq (c : Char) :
    c.isAlpha = (('A' ≤ c && c ≤ 'Z') || ('a' ≤ c && c ≤ 'z')) := by
  have vA : ('A' : Char).val = 65 := by decide
  have vZ : ('Z' : Char).val = 90 := by decide
  have va : ('a' : Char).val = 97 := by decide
  have vz : ('z' : Char).val = 122 := by decide
  simp only [Char.isAlpha, Char.isUpper, Char.isLower, Char.le_def, vA, vZ, va, vz, ge_iff_le]

theorem isDigit_eq (c : Char) : c.isDigit = ('0' ≤ c && c ≤ '9') := by
  have v0 : ('0' : Char).val = 48 := by decide
  have v9 : ('9' : Char).val = 57 := by decide
  simp only [Char.isDigit, Char.le_def, v0, v9, ge_iff_le]

/-- The class of `TriggerSyntaxError` in words: a character matches when it is
not an ASCII letter, not an ASCII digit and not one of the thirteen permitted
punctuation characters. -/
theorem triggerSyntaxError_eq (c : Char) :
    TriggerSyntaxError c = !(c.isAlpha || c.isDigit || decide (c ∈ triggerPunctuation)) := by
  rw [isAlpha_eq, isDigit_eq]
  simp only [TriggerSyntaxError, triggerPunctuation, List.mem_cons, List.mem_singleton,
    List.not_mem_nil, or_false, Bool.decide_or, Bool.or_assoc]

theorem writeCategories_append (lower : Char → Char) (xs ys : List Category) :
    writeCategories lower (xs ++ ys) =
      ((writeCategories lower xs).1 ++ (writeCategories lower ys).1,
       (writeCategories lower xs).2 ++ (writeCategories lower ys).2) := by
  induction xs with
  | nil => simp [writeCategories]
  | cons x rest ih => simp [writeCategories, ih, List.append_assoc]

theorem writeCategories_lines (lower : Char → Char) (xs : List Category) :
    (writeCategories lower xs).1 = xs.flatMap (fun c => (writeCategory lower c).1) ∧
    (writeCategories lower xs).2 = xs.flatMap (fun c => (writeCategory lower c).2) := by
  induction xs with
  | nil => simp [writeCategories]
  | cons x rest ih => simp [writeCategories, ih]

theorem writeTopics_append (lower : Char → Char) (heap : List Category)
    (xs ys : List (String × List Nat)) :
    writeTopics lower heap (xs ++ ys) =
      ((writeTopics lower heap xs).1 ++ (writeTopics lower heap ys).1,
       (writeTopics lower heap xs).2 ++ (writeTopics lower heap ys).2) := by
  induction xs with
  | nil => simp [writeTopics]
  | cons x rest ih =>
    obtain ⟨k, ps⟩ := x
    simp [writeTopics, ih, List.append_assoc]

theorem lookupTopic_appendTopic (topics : List (String × List Nat)) (topic : String) (p : Nat) :
    lookupTopic (appendTopic topics topic p) topic = lookupTopic topics topic ++ [p] ∧
    ∀ other, other ≠ topic →
      lookupTopic (appendTopic topics topic p) other = lookupTopic topics other := by
  induction topics with
  | nil =>
    refine ⟨by simp [appendTopic, lookupTopic], fun other h => ?_⟩
    simp [appendTopic, lookupTopic, Ne.symm h]
  | cons a rest ih =>
    obtain ⟨k, ps⟩ := a
    by_cases hk : k = topic
    · subst hk
      refine ⟨by simp [appendTopic, lookupTopic], fun other h => ?_⟩
      simp [appendTopic, lookupTopic, Ne.symm h]
    · refine ⟨by simp [appendTopic, lookupTopic, hk, ih.1], fun other h => ?_⟩
      by_cases ho : k = other
      · subst ho
        simp [appendTopic, lookupTopic, hk]
      · simp [appendTopic, lookupTopic, hk, ho, ih.2 other h]

/-! ## The topic and the text nodes -/

theorem dropWhile_head_not (p : Char → Bool) (l : List Char) (c : Char)
    (h : (l.dropWhile p).head? = some c) : p c = false := by
  induction l with
  | nil => simp at h
  | cons a r ih =>
    by_cases ha : p a = true
    · rw [List.dropWhile_cons_of_pos ha] at h
      exact ih h
    · rw [List.dropWhile_cons_of_neg ha] at h
      simp only [List.head?_cons, Option.some.injEq] at h
      rw [← h]
      simpa using ha

theorem trimSpaceL_ends (l : List Char) (c : Char) :
    ((trimSpaceL l).head? = some c → isSpace c = false) ∧
    ((trimSpaceL l).getLast? = some c → isSpace c = false) := by
  constructor
  · intro h
    have hsplit : l.dropWhile isSpace =
        trimSpaceL l ++ ((l.dropWhile isSpace).reverse.takeWhile isSpace).reverse := by
      have h1 := List.takeWhile_append_dropWhile isSpace (l.dropWhile isSpace).reverse
      have h2 := congrArg List.reverse h1
      rw [List.reverse_append, List.reverse_reverse] at h2
      exact h2.symm
    apply dropWhile_head_not isSpace l c
    rw [hsplit]
    cases ht : trimSpaceL l with
    | nil => rw [ht] at h; simp at h
    | cons a r =>
      rw [ht] at h
      simpa using h
  · intro h
    apply dropWhile_head_not isSpace (l.dropWhile isSpace).reverse c
    simpa [trimSpaceL, List.getLast?_reverse] using h

/-! ## The last element of a list buffer, tags without a branch, text tokens -/

theorem appendLast_eq (l : List String) (t : String) (h : l ≠ []) :
    appendLast l t = l.dropLast ++ [l.getLastD "" ++ t] := by
  obtain ⟨init, x, rfl⟩ : ∃ init x, l = init ++ [x] :=
    ⟨l.dropLast, l.getLast h, (List.dropLast_append_getLast h).symm⟩
  rw [appendLast_concat]
  simp

theorem appendLast_default (l : List String) (t : String) :
    appendLast (if l = [] then [""] else l) t = l.dropLast ++ [l.getLastD "" ++ t] := by
  by_cases h : l = []
  · subst h
    rfl
  · rw [if_neg h, appendLast_eq l t h]

theorem routeText_last (m : Machine) (token : Token) (tag text : String) :
    (routeText m token tag text).state =
      (if m.state.SetName ≠ "" then
        { m.state with
          SetValue := m.state.SetValue ++ (if text = "" then rawXML token else text) }
      else if m.state.InRandom = true then
        { m.state with
          Random := m.state.Random.dropLast ++
            [m.state.Random.getLastD "" ++ (if text = "" then rawXML token else text)] }
      else if m.state.InCondition = true then
        (if m.state.Conditions ≠ [] then
          { m.state with
            Conditions := m.state.Conditions.dropLast ++
              [m.state.Conditions.getLastD "" ++ (if text = "" then rawXML token else text)] }
        else m.state)
      else
        { m.state with
          Buffer := m.state.Buffer ++ (if text = "" then rawXML token else text) }) := by
  rw [(routeText_spec m token tag text).1, appendLast_default]
  by_cases h : m.state.Conditions = []
  · simp [h]
  · rw [appendLast_eq _ _ h]

theorem getlike_close_is_dropped (lower : Char → Char) (config : Config) (file : String)
    (m : Machine) (name : String) (hk : ToLower lower name ∉ knownTags)
    (hg : Contains (ToLower lower name) "get_" = true) :
    step lower config file m (.EndElement name) = some m := by
  simp [step, handleTag_getlike _ _ _ _ _ _ _ hk hg]

/-- A tag that has no branch in the dispatch (its lower-cased name is none of
the known tags and does not contain `get_`) falls through with an empty
`newText`, so the literal tag is routed like any other replacement text and
nothing else in the state, the categories or the result set changes; the
warning `Unhandled AIML tag` is recorded exactly when the lower-cased name is
not in the ignore list, which has no influence on the state.  The literal tag
is `<name>`, `<name k1="v1" ... kn="vn">` or `</name>`. -/
theorem unknown_tag_is_reproduced (lower : Char → Char) (config : Config)
    (file : String) (m : Machine) (token : Token) (name : String)
    (attrs : List (String × String))
    (htoken : token = .StartElement name attrs ∨ token = .EndElement name)
    (hk : ToLower lower name ∉ knownTags)
    (hg : Contains (ToLower lower name) "get_" = false) :
    (∃ m2, step lower config file m token = some m2 ∧
      m2.parsed = m.parsed ∧ m2.heap = m.heap ∧
      m2.state =
        (if m.state.SetName ≠ "" then
          { m.state with SetValue := m.state.SetValue ++ rawXML token }
        else if m.state.InRandom = true then
          { m.state with
            Random := m.state.Random.dropLast ++ [m.state.Random.getLastD "" ++ rawXML token] }
        else if m.state.InCondition = true then
          (if m.state.Conditions ≠ [] then
            { m.state with
              Conditions := m.state.Conditions.dropLast ++
                [m.state.Conditions.getLastD "" ++ rawXML token] }
          else m.state)
        else { m.state with Buffer := m.state.Buffer ++ rawXML token }) ∧
      m2.warnings =
        m.warnings ++
          (if ToLower lower name ∈ IgnoreTags then []
           else ["Unhandled AIML tag: " ++ rawXML token]))
    ∧ rawXML (.StartElement name attrs) =
        (if attrs = [] then "<" ++ name ++ ">"
         else "<" ++ name ++ " " ++
          Join (attrs.map (fun kv => kv.1 ++ "=\"" ++ kv.2 ++ "\"")) " " ++ ">")
    ∧ rawXML (.EndElement name) = "</" ++ name ++ ">" := by
  have hd : dispatch lower config file m token =
      some (.emit m (ToLower lower name) "") := by
    rcases htoken with h | h <;> subst h <;>
      simp [dispatch, handleTag_unknown _ _ _ _ _ _ _ hk hg]
  obtain ⟨-, h2, h3, h4⟩ := routeText_spec m token (ToLower lower name) ""
  have h1 := routeText_last m token (ToLower lower name) ""
  refine ⟨⟨routeText m token (ToLower lower name) "", step_of_emit _ _ _ _ _ _ _ _ hd,
    h2, h3, ?_, ?_⟩, ?_, rfl⟩
  · simpa using h1
  · simpa using h4
  · cases attrs with
    | nil => rfl
    | cons a rest => simp [rawXML, rawAttrs_eq_join]

/-- Example: `<B class="x">` inside a random with the alternatives `a` and `b`
goes to the last alternative, and the ignore list keeps the warning away. -/
theorem unknown_tag_is_reproduced_example :
    ∃ m2, step asciiLower ⟨false⟩ "a.aiml"
        (setState NewAIMLState { NewAIMLState.state with InRandom := true, Random := ["a", "b"] })
        (.StartElement "B" [("class", "x")]) = some m2 ∧
      m2.state = { NewAIMLState.state with
        InRandom := true, Random := ["a", "b<B class=\"x\">"] } ∧
      m2.warnings = [] :=
  match (unknown_tag_is_reproduced asciiLower ⟨false⟩ "a.aiml"
    (setState NewAIMLState { NewAIMLState.state with InRandom := true, Random := ["a", "b"] })
    (.StartElement "B" [("class", "x")]) "B" [("class", "x")] (Or.inl rfl)
    (by decide) (by decide)).1 with
  | ⟨m2, h1, _, _, h4, h5⟩ => ⟨m2, h1, h4, h5⟩

/-- A text token that is empty after trimming leaves the machine unchanged.
Otherwise, in every state in which the routing target exists (that is, unless
the text is routed to the condition branches and there is none), the step is
defined and appends the trimmed text to the target chosen by priority: the
assignment value, the last random alternative (the first one when there is none
yet), the last condition branch, or the text buffer; nothing else changes.  The
trimmed text neither starts nor ends with white space. -/
theorem text_token_appends_trimmed (lower : Char → Char) (config : Config) (file : String)
    (m : Machine) (text : String) :
    (TrimSpace text = "" → step lower config file m (.CharData text) = some m)
    ∧ (TrimSpace text ≠ "" →
        ¬ (m.state.SetName = "" ∧ m.state.InRandom = false ∧ m.state.InCondition = true ∧
          m.state.Conditions = []) →
        step lower config file m (.CharData text) =
          some (setState m
            (if m.state.SetName ≠ "" then
              { m.state with SetValue := m.state.SetValue ++ TrimSpace text }
            else if m.state.InRandom = true then
              { m.state with
                Random := m.state.Random.dropLast ++
                  [m.state.Random.getLastD "" ++ TrimSpace text] }
            else if m.state.InCondition = true then
              { m.state with
                Conditions := m.state.Conditions.dropLast ++
                  [m.state.Conditions.getLastD "" ++ TrimSpace text] }
            else { m.state with Buffer := m.state.Buffer ++ TrimSpace text })))
    ∧ (∀ c : Char, ((TrimSpace text).data.head? = some c → isSpace c = false) ∧
        ((TrimSpace text).data.getLast? = some c → isSpace c = false)) := by
  refine ⟨?_, ?_, ?_⟩
  · intro h
    simp [step, handleText, h]
  · intro h htarget
    by_cases h1 : m.state.SetName = ""
    · by_cases h2 : m.state.InRandom = true
      · have e := appendLast_default m.state.Random (TrimSpace text)
        by_cases h3 : m.state.Random = []
        · simp [h3] at e
          simp [step, handleText, h, h1, h2, h3, e]
        · simp [h3] at e
          simp [step, handleText, h, h1, h2, h3, List.length_eq_zero, e]
      · by_cases h3 : m.state.InCondition = true
        · have h4 : m.state.Conditions ≠ [] := fun h4 =>
            htarget ⟨h1, by simpa using h2, h3, h4⟩
          simp [step, handleText, h, h1, h2, h3, h4, List.length_eq_zero,
            appendLast_eq _ (TrimSpace text) h4]
        · simp [step, handleText, h, h1, h2, h3]
    · simp [step, handleText, h, h1]
  · intro c
    exact trimSpaceL_ends text.data c

/-- Example: the text ` hi ` inside a random with the alternatives `a` and `b`. -/
theorem text_token_appends_trimmed_example :
    step asciiLower ⟨false⟩ "a.aiml"
      (setState NewAIMLState { NewAIMLState.state with InRandom := true, Random := ["a", "b"] })
      (.CharData " hi ") =
      some (setState NewAIMLState { NewAIMLState.state with
        InRandom := true, Random := ["a", "bhi"] }) :=
  (text_token_appends_trimmed asciiLower ⟨false⟩ "a.aiml"
    (setState NewAIMLState { NewAIMLState.state with InRandom := true, Random := ["a", "b"] })
    " hi ").2.1 (by decide) (by decide)

/-- Claim C1 (evaluation of the code): the result set is not only changed by a
category close.  After `<category><pattern>A</pattern></category>` the result
set holds one record with pattern `A` under `random`; `state.Category` still
points at that record, so the following `<pattern>B</pattern>` (no category is
open) overwrites the pattern of the committed record: three tokens that are
not a category close change the result set. -/
theorem C1_container_close_after_commit_rewrites_record :
    (processAIML asciiLower ⟨false⟩ "a.aiml"
      [.StartElement "category" [], .StartElement "pattern" [], .CharData "A",
       .EndElement "pattern", .EndElement "category"]).map resultSet
      = some [("random", [{ Pattern := "A", That := "", Template := "", Conditions := [] }])]
    ∧
    (processAIML asciiLower ⟨false⟩ "a.aiml"
      [.StartElement "category" [], .StartElement "pattern" [], .CharData "A",
       .EndElement "pattern", .EndElement "category",
       .StartElement "pattern" [], .CharData "B", .EndElement "pattern"]).map resultSet
      = some [("random", [{ Pattern := "B", That := "", Template := "", Conditions := [] }])] := by
  constructor <;> rfl

/-- Claim C2 (evaluation of the code): closing a condition does not keep the
branch lines.  In every state `</condition>` empties the branch list (and
clears the flag and the name).  For the well-nested category with
`<condition name="mood">` and one `<li value="happy">Yay</li>`, the branch list
holds the rendered line just before the condition closes, is empty right after
it, and the record committed by the category close has no branches. -/
theorem C2_condition_close_discards_branches :
    (∀ (config : Config) (file : String) (m : Machine),
      step asciiLower config file m (.EndElement "condition") =
        some (setState m { m.state with
          InCondition := false, ConditionName := "", Conditions := [] }))
    ∧
    (processAIML asciiLower ⟨false⟩ "a.aiml"
      [.StartElement "category" [], .StartElement "template" [],
       .StartElement "condition" [("name", "mood")],
       .StartElement "li" [("value", "happy")], .CharData "Yay",
       .EndElement "li"]).map (fun m => m.state.Conditions)
      = some ["<get mood> == happy => Yay"]
    ∧
    (processAIML asciiLower ⟨false⟩ "a.aiml"
      [.StartElement "category" [], .StartElement "template" [],
       .StartElement "condition" [("name", "mood")],
       .StartElement "li" [("value", "happy")], .CharData "Yay",
       .EndElement "li", .EndElement "condition"]).map (fun m => m.state.Conditions)
      = some []
    ∧
    (processAIML asciiLower ⟨false⟩ "a.aiml"
      [.StartElement "category" [], .StartElement "template" [],
       .StartElement "condition" [("name", "mood")],
       .StartElement "li" [("value", "happy")], .CharData "Yay",
       .EndElement "li", .EndElement "condition",
       .EndElement "template", .EndElement "category"]).map resultSet
      = some [("random", [{ Pattern := "", That := "", Template := "", Conditions := [] }])] := by
  refine ⟨?_, ?_, ?_, ?_⟩
  · intro config file m
    have h : ToLower asciiLower "condition" = "condition" := by decide
    simp [step, h, handleTag_condition]
  · rfl
  · rfl
  · rfl

/-- Claim C3 (evaluation of the code): an item close inside a condition ends
the condition.  After `<condition name="mood">`, `<li value="happy">Yay</li>`
the flag `InCondition` is already false; the second item
`<li value="sad">Boo</li>` appends no branch line and its body goes to the text
buffer, so two items leave one branch, not two. -/
theorem C3_item_close_ends_condition :
    (processAIML asciiLower ⟨false⟩ "a.aiml"
      [.StartElement "condition" [("name", "mood")],
       .StartElement "li" [("value", "happy")], .CharData "Yay",
       .EndElement "li"]).map
        (fun m => (m.state.InCondition, m.state.Conditions, m.state.Buffer))
      = some (false, ["<get mood> == happy => Yay"], "")
    ∧
    (processAIML asciiLower ⟨false⟩ "a.aiml"
      [.StartElement "condition" [("name", "mood")],
       .StartElement "li" [("value", "happy")], .CharData "Yay", .EndElement "li",
       .StartElement "li" [("value", "sad")], .CharData "Boo", .EndElement "li"]).map
        (fun m => (m.state.InCondition, m.state.Conditions, m.state.Buffer))
      = some (false, ["<get mood> == happy => Yay"], "Boo") := by
  constructor <;> rfl

/-- Claim C4: a choice-item open inside a condition (not inside a random) whose
effective variable name `n` (its own `name` attribute when non-empty, otherwise
the name of the condition) is non-empty and whose `value` attribute `v` is
non-empty appends exactly one branch line and changes nothing else:
`<get n> != undefined => ` for `*`, `<get n> == undefined => ` when `v`
lower-cases to `unknown` or `om`, and `<get n> == v => ` otherwise. -/
theorem C4_condition_item_appends_one_branch (lower : Char → Char) (config : Config)
    (file : String) (m : Machine) (name : String) (attrs : List (String × String))
    (n v : String)
    (htag : ToLower lower name = "li")
    (hrandom : m.state.InRandom = false) (hcond : m.state.InCondition = true)
    (hn : n = if attr lower attrs "name" ≠ "" then attr lower attrs "name"
              else m.state.ConditionName)
    (hn0 : n ≠ "")
    (hv : v = attr lower attrs "value") (hv0 : v ≠ "") :
    step lower config file m (.StartElement name attrs) =
      some (setState m { m.state with
        Conditions := m.state.Conditions ++
          [if v = "*" then "<get " ++ n ++ "> != undefined => "
           else if ToLower lower v = "unknown" ∨ ToLower lower v = "om" then
             "<get " ++ n ++ "> == undefined => "
           else "<get " ++ n ++ "> == " ++ v ++ " => "] }) := by
  have hom := toLower_undefined_ne_om lower
  have hstar := toLower_star_ne lower
  subst hv
  simp only [step, htag, handleTag_li, hrandom, hcond, conditionItem, ← hn]
  simp only [hn0, hv0, ne_eq, not_false_eq_true, if_true, if_false, Bool.false_eq_true]
  by_cases h1 : attr lower attrs "value" = "*"
  · simp [h1, hstar.1, hstar.2]
  · by_cases h2 : ToLower lower (attr lower attrs "value") = "unknown"
    · simp [h1, h2, hom, String.append_assoc]
    · by_cases h3 : ToLower lower (attr lower attrs "value") = "om"
      · simp [h1, h2, h3, String.append_assoc]
      · simp [h1, h2, h3]

/-- Witness of C4: `<li value="happy">` inside `<condition name="mood">`. -/
theorem C4_condition_item_appends_one_branch_witness :
    step asciiLower ⟨false⟩ "a.aiml"
      (setState NewAIMLState { NewAIMLState.state with
        InCondition := true, ConditionName := "mood" })
      (.StartElement "li" [("value", "happy")]) =
      some (setState NewAIMLState { NewAIMLState.state with
        InCondition := true, ConditionName := "mood",
        Conditions := ["<get mood> == happy => "] }) :=
  C4_condition_item_appends_one_branch asciiLower ⟨false⟩ "a.aiml"
    (setState NewAIMLState { NewAIMLState.state with
      InCondition := true, ConditionName := "mood" })
    "li" [("value", "happy")] "mood" "happy"
    (by decide) rfl rfl (by decide) (by decide) (by decide) (by decide)

/-- Claim C5 (counterexample): the body text is not used as it stands.  For
`<set name="x"> hi</set>` the claim gives `<set x= hi><get x>`, the program
appends `<set x=hi><get x>` because the text is trimmed first; and for the body
`{formal}{/formal}` the claim gives `<set x={formal}{/formal}><get x>`, the
program appends `<set x=<undef>><get x>`. -/
theorem C5_body_text_is_trimmed_counterexample :
    ((processAIML asciiLower ⟨false⟩ "a.aiml"
        [.StartElement "set" [("name", "x")], .CharData " hi", .EndElement "set"]).map
        (fun m => m.state.Buffer) = some "<set x=hi><get x>"
      ∧ "<set x=hi><get x>" ≠ "<set x=" ++ " hi" ++ "><get x>")
    ∧
    ((processAIML asciiLower ⟨false⟩ "a.aiml"
        [.StartElement "set" [("name", "x")], .CharData "\x7bformal\x7d\x7b/formal\x7d",
         .EndElement "set"]).map
        (fun m => m.state.Buffer) = some "<set x=<undef>><get x>"
      ∧ "<set x=<undef>><get x>" ≠ "<set x=" ++ "\x7bformal\x7d\x7b/formal\x7d" ++ "><get x>") := by
  refine ⟨⟨rfl, by decide⟩, ⟨rfl, by decide⟩⟩

/-- Claim C5 (amended): for a variable name `n` that is not empty and is neither
`name` nor `topic`, and a body text `b` whose trimmed content is neither empty
nor the literal `{formal}{/formal}`, the tokens set open (name `n`), text `b`,
set close, processed with no random and no condition active, append
`<set n=t><get n>` to the text buffer when `Thinking` is false and exactly
`<set n=t>` when it is true, where `t` is the trimmed body; the assignment name
and value are empty afterwards and nothing else changes. -/
theorem C5_set_directive_and_read_back (lower : Char → Char) (config : Config)
    (file : String) (m : Machine) (opening closing : String) (attrs : List (String × String))
    (n b : String)
    (hopen : ToLower lower opening = "set") (hclose : ToLower lower closing = "set")
    (hattr : attr lower attrs "name" = n)
    (hn : n ≠ "") (hname : n ≠ "name") (htopic : n ≠ "topic")
    (hb : TrimSpace b ≠ "") (hformal : TrimSpace b ≠ "\x7bformal\x7d\x7b/formal\x7d")
    (hrandom : m.state.InRandom = false) (hcond : m.state.InCondition = false) :
    run lower config file m
        [.StartElement opening attrs, .CharData b, .EndElement closing] =
      some (setState m { m.state with
        SetName := "", SetValue := "",
        Buffer := m.state.Buffer ++
          (if m.state.Thinking then "<set " ++ n ++ "=" ++ TrimSpace b ++ ">"
           else "<set " ++ n ++ "=" ++ TrimSpace b ++ ">" ++ "<get " ++ n ++ ">") }) :=
  run_set_text_close lower config file m opening closing attrs n b hopen hclose hattr hn hname
    htopic hb hformal hrandom hcond

/-- Witness of C5: `<set name="foo">bar</set>` from the initial state. -/
theorem C5_set_directive_and_read_back_witness :
    run asciiLower ⟨false⟩ "a.aiml" NewAIMLState
        [.StartElement "set" [("name", "foo")], .CharData "bar", .EndElement "set"] =
      some (setState NewAIMLState { NewAIMLState.state with
        SetName := "", SetValue := "",
        Buffer := NewAIMLState.state.Buffer ++
          (if NewAIMLState.state.Thinking then "<set " ++ "foo" ++ "=" ++ TrimSpace "bar" ++ ">"
           else "<set " ++ "foo" ++ "=" ++ TrimSpace "bar" ++ ">" ++ "<get " ++ "foo" ++ ">") }) :=
  C5_set_directive_and_read_back asciiLower ⟨false⟩ "a.aiml" NewAIMLState "set" "set"
    [("name", "foo")] "foo" "bar" (by decide) (by decide) (by decide) (by decide) (by decide)
    (by decide) (by decide) (by decide) rfl rfl

/-- Claim C7: a set close processed with a non-empty assignment name emits the
directive `<set N=v>` (followed by the read-back unless `Thinking`), where `N`
is the name (`alicetopic` for `topic` without real topics) and the value `v` is
never empty; when the accumulated value is empty, `v` is the sentinel
`<undef>`.  A set close processed with an empty assignment name emits nothing
and leaves the machine unchanged. -/
theorem C7_empty_value_becomes_undef (lower : Char → Char) (config : Config)
    (file : String) (m : Machine) (closing : String)
    (hclose : ToLower lower closing = "set") :
    (m.state.SetName ≠ "" →
      ∃ v : String, v ≠ "" ∧ (m.state.SetValue = "" → v = "<undef>") ∧
        step lower config file m (.EndElement closing) =
          some (routeText (setState m { m.state with SetName := "", SetValue := "" })
            (.EndElement closing) "set"
            ("<set " ++
              (if m.state.SetName = "topic" ∧ config.RealTopics = false then "alicetopic"
               else m.state.SetName) ++ "=" ++ v ++ ">" ++
              (if m.state.Thinking then ""
               else "<get " ++
                (if m.state.SetName = "topic" ∧ config.RealTopics = false then "alicetopic"
                 else m.state.SetName) ++ ">"))))
    ∧ (m.state.SetName = "" → step lower config file m (.EndElement closing) = some m) := by
  constructor
  · intro hn
    obtain ⟨v, h1, h2, -, h4⟩ := closeSet_text config m
    refine ⟨v, h1, h2, ?_⟩
    simp only [step, hclose, handleTag_set, Bool.false_eq_true, if_false, hn, ← h4]
    rfl
  · intro hn
    simp [step, hclose, handleTag_set, hn]

/-- Witness of C7: `</set>` with the name `foo` and an empty value. -/
theorem C7_empty_value_becomes_undef_witness :
    ∃ v : String, v ≠ "" ∧ ("" = "" → v = "<undef>") ∧
      step asciiLower ⟨false⟩ "a.aiml"
        (setState NewAIMLState { NewAIMLState.state with SetName := "foo" })
        (.EndElement "set") =
        some (routeText NewAIMLState (.EndElement "set") "set"
          ("<set " ++ "foo" ++ "=" ++ v ++ ">" ++ ("<get " ++ "foo" ++ ">"))) :=
  (C7_empty_value_becomes_undef asciiLower ⟨false⟩ "a.aiml"
    (setState NewAIMLState { NewAIMLState.state with SetName := "foo" }) "set"
    (by decide)).1 (by decide)

/-- Claim C8 (counterexample): for `<set name="name"></set>` the value in the
directive is the bare sentinel, not the sentinel wrapped in the title-case
marker: the text buffer is `<set name=<undef>><get name>`. -/
theorem C8_empty_name_value_not_wrapped_counterexample :
    (processAIML asciiLower ⟨false⟩ "a.aiml"
        [.StartElement "set" [("name", "name")], .EndElement "set"]).map
        (fun m => m.state.Buffer) = some "<set name=<undef>><get name>"
    ∧ "<set name=<undef>><get name>" ≠
        "<set name=" ++ ("\x7bformal\x7d" ++ "<undef>" ++ "\x7b/formal\x7d") ++ "><get name>" := by
  refine ⟨rfl, by decide⟩

/-- Claim C8 (amended): on close of a set whose variable name is `name`, the
value in the emitted directive is `{formal}` + v + `{/formal}` when the
accumulated value `v` is not empty, and the bare sentinel `<undef>` when it is
empty. -/
theorem C8_name_value_is_formalized (lower : Char → Char) (config : Config)
    (file : String) (m : Machine) (closing : String)
    (hclose : ToLower lower closing = "set") (hname : m.state.SetName = "name") :
    step lower config file m (.EndElement closing) =
      some (routeText (setState m { m.state with SetName := "", SetValue := "" })
        (.EndElement closing) "set"
        ("<set name=" ++
          (if m.state.SetValue = "" then "<undef>"
           else "\x7bformal\x7d" ++ m.state.SetValue ++ "\x7b/formal\x7d") ++ ">" ++
          (if m.state.Thinking then "" else "<get name>"))) := by
  obtain ⟨v, -, -, h3, h4⟩ := closeSet_text config m
  have hn : m.state.SetName ≠ "" := by rw [hname]; decide
  have h5 := h3 hname
  subst h5
  simp only [step, hclose, handleTag_set, Bool.false_eq_true, if_false, hn]
  rw [h4]
  have e1 : (if m.state.SetName = "topic" ∧ config.RealTopics = false then "alicetopic"
      else m.state.SetName) = "name" := by
    simp [hname]
  rw [e1]
  have hm : (closeSet config m).1 =
      setState m { m.state with SetName := "", SetValue := "" } := rfl
  rw [hm]
  by_cases ht : m.state.Thinking = true <;> simp [ht, String.append_assoc]

/-- Witness of C8: `</set>` with the name `name` and the value `bob`. -/
theorem C8_name_value_is_formalized_witness :
    step asciiLower ⟨false⟩ "a.aiml"
      (setState NewAIMLState { NewAIMLState.state with SetName := "name", SetValue := "bob" })
      (.EndElement "set") =
      some (setState NewAIMLState { NewAIMLState.state with
        Buffer := "<set name=\x7bformal\x7dbob\x7b/formal\x7d><get name>" }) :=
  C8_name_value_is_formalized asciiLower ⟨false⟩ "a.aiml"
    (setState NewAIMLState { NewAIMLState.state with SetName := "name", SetValue := "bob" })
    "set" (by decide) rfl

/-- Claim C9: a random close emits `{random}` + J + `{/random}`, where J joins
with `|` the trimmed alternatives that are not empty, in their order; the step
is defined, and afterwards `InRandom` is false and the list of alternatives is
empty.  For `["hi", "  ", "hello"]` the text is `{random}hi|hello{/random}`. -/
theorem C9_random_close_joins_alternatives (lower : Char → Char) (config : Config)
    (file : String) (m : Machine) (closing : String)
    (hclose : ToLower lower closing = "random") :
    step lower config file m (.EndElement closing) =
      some (routeText (setState m { m.state with InRandom := false, Random := [] })
        (.EndElement closing) "random"
        ("\x7brandom\x7d" ++
          Join ((m.state.Random.map TrimSpace).filter (fun item => item ≠ "")) "|" ++
          "\x7b/random\x7d"))
    ∧ (∀ m1 : Machine, step lower config file m (.EndElement closing) = some m1 →
        m1.state.InRandom = false ∧ m1.state.Random = [])
    ∧ "\x7brandom\x7d" ++
        Join ((["hi", "  ", "hello"].map TrimSpace).filter (fun item => item ≠ "")) "|" ++
        "\x7b/random\x7d" = "\x7brandom\x7dhi|hello\x7b/random\x7d" := by
  have hne : "\x7brandom\x7d" ++
      Join ((m.state.Random.map TrimSpace).filter (fun item => item ≠ "")) "|" ++
      "\x7b/random\x7d" ≠ "" := by
    rw [String.append_assoc]
    exact string_append_ne_empty_left _ _ (by decide)
  have hstep : step lower config file m (.EndElement closing) =
      some (routeText (setState m { m.state with InRandom := false, Random := [] })
        (.EndElement closing) "random"
        ("\x7brandom\x7d" ++
          Join ((m.state.Random.map TrimSpace).filter (fun item => item ≠ "")) "|" ++
          "\x7b/random\x7d")) := by
    simp only [step, hclose, handleTag_random, Bool.false_eq_true, if_false]
    rfl
  refine ⟨hstep, ?_, by rfl⟩
  intro m1 h1
  rw [hstep] at h1
  simp only [Option.some.injEq] at h1
  subst h1
  refine ⟨(routeText_frame _ _ _ _).2.1, ?_⟩
  rw [routeText_handled _ _ _ _ hne]
  simp only [setState, Bool.false_eq_true, if_false]
  split_ifs <;> rfl

/-- Witness of C9: `</random>` with the alternatives `hi`, blank, `hello`. -/
theorem C9_random_close_joins_alternatives_witness :
    step asciiLower ⟨false⟩ "a.aiml"
      (setState NewAIMLState { NewAIMLState.state with
        InRandom := true, Random := ["hi", "  ", "hello"] })
      (.EndElement "random") =
      some (setState NewAIMLState { NewAIMLState.state with
        Buffer := "\x7brandom\x7dhi|hello\x7b/random\x7d" }) :=
  (C9_random_close_joins_alternatives asciiLower ⟨false⟩ "a.aiml"
    (setState NewAIMLState { NewAIMLState.state with
      InRandom := true, Random := ["hi", "  ", "hello"] })
    "random" (by decide)).1

/-- Claim C10: a random open processed while `InRandom` is true sets `Tainted`
and records exactly one warning; `Tainted` stays true as long as no category
open is processed; hence, after a stream with two random opens, no random close
between them and no category open after the second one (the category open of
the record is somewhere before), `Tainted` is true, a warning has been
recorded, and a category close is defined and leaves the whole machine, the
result set included, unchanged. -/
theorem C10_nested_random_drops_record (lower : Char → Char) (config : Config)
    (file : String) (m0 m1 : Machine) (before between after : List Token)
    (random1 random2 close : Token)
    (h1 : isStart lower "random" random1 = true)
    (h2 : isStart lower "random" random2 = true)
    (hclose : isEnd lower "category" close = true)
    (hbetween : ∀ t ∈ between, isEnd lower "random" t = false)
    (hafter : ∀ t ∈ after, isStart lower "category" t = false)
    (hrun : run lower config file m0
      (before ++ [random1] ++ between ++ [random2] ++ after) = some m1) :
    (m1.state.Tainted = true ∧ m1.warnings ≠ [] ∧
      step lower config file m1 close = some m1 ∧
      (step lower config file m1 close).map resultSet = some (resultSet m1))
    ∧ (∀ (m : Machine) (name : String) (attrs : List (String × String)),
        ToLower lower name = "random" → m.state.InRandom = true →
        step lower config file m (.StartElement name attrs) =
          some (setState
            (warn m ("Embedded randoms at " ++ file ++ " in pattern " ++
              (deref m.heap m.state.Category).Pattern))
            { m.state with Tainted := true, InRandom := true, Random := [] }))
    ∧ (∀ (m m2 : Machine) (tokens : List Token), m.state.Tainted = true →
        (∀ t ∈ tokens, isStart lower "category" t = false) →
        run lower config file m tokens = some m2 → m2.state.Tainted = true) := by
  refine ⟨?_, ?_, ?_⟩
  · obtain ⟨mA, hA, hC⟩ := run_append lower config file _ after m0 m1 hrun
    obtain ⟨mB, hB, hR2⟩ := run_append lower config file _ [random2] m0 mA hA
    obtain ⟨mC, hC1, hBb⟩ := run_append lower config file _ between m0 mB hB
    obtain ⟨mD, -, hR1⟩ := run_append lower config file before [random1] m0 mC hC1
    have s1 := run_single _ _ _ _ _ _ hR1
    have s2 := run_single _ _ _ _ _ _ hR2
    have hC_in : mC.state.InRandom = true := by
      cases random1 with
      | StartElement name attrs =>
        have hn : ToLower lower name = "random" := by simpa [isStart] using h1
        rw [step_random_open _ _ _ _ _ _ hn] at s1
        simp only [Option.some.injEq] at s1
        subst s1
        split_ifs <;> rfl
      | CharData _ => simp [isStart] at h1
      | EndElement _ => simp [isStart] at h1
      | Other => simp [isStart] at h1
    have hB_in : mB.state.InRandom = true :=
      run_inRandom lower config file between mC mB hC_in hbetween hBb
    have hA_t : mA.state.Tainted = true ∧ mA.warnings ≠ [] := by
      cases random2 with
      | StartElement name attrs =>
        have hn : ToLower lower name = "random" := by simpa [isStart] using h2
        rw [step_random_open _ _ _ _ _ _ hn] at s2
        simp only [Option.some.injEq, hB_in, if_true] at s2
        subst s2
        exact ⟨rfl, by simp [setState, warn]⟩
      | CharData _ => simp [isStart] at h2
      | EndElement _ => simp [isStart] at h2
      | Other => simp [isStart] at h2
    have ht : m1.state.Tainted = true :=
      run_tainted lower config file after mA m1 hA_t.1 hafter hC
    have hw : m1.warnings ≠ [] := by
      obtain ⟨w, hw⟩ := run_warnings lower config file after mA m1 hC
      rw [hw]
      intro h
      exact hA_t.2 (List.append_eq_nil.mp h).1
    have hs : step lower config file m1 close = some m1 := by
      cases close with
      | EndElement name =>
        have hn : ToLower lower name = "category" := by simpa [isEnd] using hclose
        exact step_category_close_tainted _ _ _ _ _ hn ht
      | CharData _ => simp [isEnd] at hclose
      | StartElement _ _ => simp [isEnd] at hclose
      | Other => simp [isEnd] at hclose
    exact ⟨ht, hw, hs, by rw [hs]; rfl⟩
  · intro m name attrs hn hin
    rw [step_random_open _ _ _ _ _ _ hn, hin]
    rfl
  · intro m m2 tokens ht hall h
    exact run_tainted lower config file tokens m m2 ht hall h

/-- Witness of C10: a category whose template holds a random inside a random. -/
theorem C10_nested_random_drops_record_witness :
    run asciiLower ⟨false⟩ "a.aiml" NewAIMLState
      ([.StartElement "category" [], .StartElement "template" []] ++
        [.StartElement "random" []] ++ [.StartElement "li" []] ++
        [.StartElement "random" []] ++
        [.StartElement "li" [], .CharData "x", .EndElement "li", .EndElement "random",
         .EndElement "li", .EndElement "random", .EndElement "template"]) =
      some
        { state :=
            { Topic := "random", Buffer := "\x7brandom\x7dx\x7b/random\x7d\x7brandom\x7d\x7b/random\x7d",
              InTag := "template", Category := 1, Thinking := false, SetName := "",
              SetValue := "", InRandom := false, Random := [], InCondition := false,
              ConditionName := "", Conditions := [], Tainted := true }
          parsed := { Topics := [] }
          heap := [NewCategory,
            { Pattern := "", That := "",
              Template := "\x7brandom\x7dx\x7b/random\x7d\x7brandom\x7d\x7b/random\x7d",
              Conditions := [] }]
          warnings := ["Embedded randoms at a.aiml in pattern "] }
    ∧ (step asciiLower ⟨false⟩ "a.aiml"
        { state :=
            { Topic := "random", Buffer := "\x7brandom\x7dx\x7b/random\x7d\x7brandom\x7d\x7b/random\x7d",
              InTag := "template", Category := 1, Thinking := false, SetName := "",
              SetValue := "", InRandom := false, Random := [], InCondition := false,
              ConditionName := "", Conditions := [], Tainted := true }
          parsed := { Topics := [] }
          heap := [NewCategory,
            { Pattern := "", That := "",
              Template := "\x7brandom\x7dx\x7b/random\x7d\x7brandom\x7d\x7b/random\x7d",
              Conditions := [] }]
          warnings := ["Embedded randoms at a.aiml in pattern "] }
        (.EndElement "category")).map resultSet = some [] :=
  ⟨rfl,
   (C10_nested_random_drops_record asciiLower ⟨false⟩ "a.aiml" NewAIMLState _
      [.StartElement "category" [], .StartElement "template" []]
      [.StartElement "li" []]
      [.StartElement "li" [], .CharData "x", .EndElement "li", .EndElement "random",
       .EndElement "li", .EndElement "random", .EndElement "template"]
      (.StartElement "random" []) (.StartElement "random" []) (.EndElement "category")
      (by decide) (by decide) (by decide) (by decide) (by decide) rfl).1.2.2.2⟩

/-- Claim C11 (counterexample): replacement text can be lost.  After
`<condition name="x">` the branch list is empty; the replacement `<star>` of the
following `<star>` tag reaches the routing code with `InCondition` true and is
appended to no buffer at all. -/
theorem C11_text_lost_in_empty_condition_counterexample :
    (processAIML asciiLower ⟨false⟩ "a.aiml"
        [.StartElement "condition" [("name", "x")], .StartElement "star" []]).map
        (fun m => (m.state.InCondition, m.state.SetValue, m.state.Random,
          m.state.Conditions, m.state.Buffer))
      = some (true, "", [], [], "") := by
  rfl

/-- Claim C11 (amended): when the dispatch of a tag event falls through to the
routing code with the text `newText` (the literal tag when `newText` is empty)
and the machine `m1` left by the tag's own update, the step is defined and the
text `r` is appended to one buffer chosen by priority on `m1`: the assignment
value if an assignment name is set; else, if `InRandom`, the last random
alternative, the alternatives before it staying as they are (a first, empty
alternative is created when the list is empty, so the list becomes `[r]`);
else, if `InCondition`, the last condition branch when the branch list is not
empty, the branches before it staying as they are, and no buffer at all when it
is empty; else the text buffer.  Every other field of the state, the categories
and the result set are those of `m1`. -/
theorem C11_replacement_text_routing (lower : Char → Char) (config : Config)
    (file : String) (m m1 : Machine) (token : Token) (tag1 newText : String)
    (hemit : dispatch lower config file m token = some (.emit m1 tag1 newText)) :
    ∃ m2, step lower config file m token = some m2 ∧
      m2.parsed = m1.parsed ∧ m2.heap = m1.heap ∧
      m2.state =
        (if m1.state.SetName ≠ "" then
          { m1.state with
            SetValue := m1.state.SetValue ++ (if newText = "" then rawXML token else newText) }
        else if m1.state.InRandom = true then
          { m1.state with
            Random := m1.state.Random.dropLast ++
              [m1.state.Random.getLastD "" ++
                (if newText = "" then rawXML token else newText)] }
        else if m1.state.InCondition = true then
          (if m1.state.Conditions ≠ [] then
            { m1.state with
              Conditions := m1.state.Conditions.dropLast ++
                [m1.state.Conditions.getLastD "" ++
                  (if newText = "" then rawXML token else newText)] }
          else m1.state)
        else
          { m1.state with
            Buffer := m1.state.Buffer ++ (if newText = "" then rawXML token else newText) }) := by
  obtain ⟨-, h2, h3, -⟩ := routeText_spec m1 token tag1 newText
  exact ⟨routeText m1 token tag1 newText, step_of_emit _ _ _ _ _ _ _ _ hemit, h2, h3,
    routeText_last m1 token tag1 newText⟩

/-- Witness of C11: `<star>` goes to the last of the random alternatives `a`,
`b`, `c` when a random is open, also when a condition with branches is open as
well; to the last of the condition branches `p`, `q` when only the condition is
open; and to the assignment value when a name is set, whatever else is open. -/
theorem C11_replacement_text_routing_witness :
    (∃ m2, step asciiLower ⟨false⟩ "a.aiml"
        (setState NewAIMLState { NewAIMLState.state with
          InRandom := true, Random := ["a", "b", "c"], InCondition := true,
          Conditions := ["p", "q"], Buffer := "t" })
        (.StartElement "star" []) = some m2 ∧
      m2.parsed = NewAIMLState.parsed ∧ m2.heap = NewAIMLState.heap ∧
      m2.state = { NewAIMLState.state with
        InRandom := true, Random := ["a", "b", "c<star>"], InCondition := true,
        Conditions := ["p", "q"], Buffer := "t" })
    ∧ (∃ m2, step asciiLower ⟨false⟩ "a.aiml"
        (setState NewAIMLState { NewAIMLState.state with
          InCondition := true, Conditions := ["p", "q"], Buffer := "t" })
        (.StartElement "star" []) = some m2 ∧
      m2.parsed = NewAIMLState.parsed ∧ m2.heap = NewAIMLState.heap ∧
      m2.state = { NewAIMLState.state with
        InCondition := true, Conditions := ["p", "q<star>"], Buffer := "t" })
    ∧ (∃ m2, step asciiLower ⟨false⟩ "a.aiml"
        (setState NewAIMLState { NewAIMLState.state with
          SetName := "n", SetValue := "v", InRandom := true, Random := ["a", "b"],
          Buffer := "t" })
        (.StartElement "star" []) = some m2 ∧
      m2.parsed = NewAIMLState.parsed ∧ m2.heap = NewAIMLState.heap ∧
      m2.state = { NewAIMLState.state with
        SetName := "n", SetValue := "v<star>", InRandom := true, Random := ["a", "b"],
        Buffer := "t" }) :=
  ⟨C11_replacement_text_routing asciiLower ⟨false⟩ "a.aiml"
      (setState NewAIMLState { NewAIMLState.state with
        InRandom := true, Random := ["a", "b", "c"], InCondition := true,
        Conditions := ["p", "q"], Buffer := "t" })
      (setState NewAIMLState { NewAIMLState.state with
        InRandom := true, Random := ["a", "b", "c"], InCondition := true,
        Conditions := ["p", "q"], Buffer := "t" })
      (.StartElement "star" []) "star" "<star>" rfl,
   C11_replacement_text_routing asciiLower ⟨false⟩ "a.aiml"
      (setState NewAIMLState { NewAIMLState.state with
        InCondition := true, Conditions := ["p", "q"], Buffer := "t" })
      (setState NewAIMLState { NewAIMLState.state with
        InCondition := true, Conditions := ["p", "q"], Buffer := "t" })
      (.StartElement "star" []) "star" "<star>" rfl,
   C11_replacement_text_routing asciiLower ⟨false⟩ "a.aiml"
      (setState NewAIMLState { NewAIMLState.state with
        SetName := "n", SetValue := "v", InRandom := true, Random := ["a", "b"],
        Buffer := "t" })
      (setState NewAIMLState { NewAIMLState.state with
        SetName := "n", SetValue := "v", InRandom := true, Random := ["a", "b"],
        Buffer := "t" })
      (.StartElement "star" []) "star" "<star>" rfl⟩

/-- Claim C12 (evaluation of the code): a tag without a branch of its own whose
name contains `get_` is not reproduced.  The dispatch sends every name that
contains `get_` to the branch of `bot` and `get`, although the expression for
the old-style `<get_name/>` is anchored at the start and does not match
`forget_it`.  So `<forget_it>x</forget_it>` from the initial state leaves
`<forget_it>x` in the text buffer: the open event is reproduced, with the
warning `Unhandled AIML tag: <forget_it>`, and the close event is dropped in
every state, where the literal tag is `</forget_it>`.  The open event
`<widget_x name="z">` yields `<widget_x z>` instead of its literal tag, and no
warning. -/
theorem C12_unknown_tag_with_get_is_not_reproduced :
    ("forget_it" ∉ knownTags ∧ "widget_x" ∉ knownTags ∧ OldGetTag "forget_it" = none ∧
      OldGetTag "widget_x" = none)
    ∧ (processAIML asciiLower ⟨false⟩ "a.aiml"
        [.StartElement "forget_it" [], .CharData "x", .EndElement "forget_it"]).map
        (fun m => (m.state.Buffer, m.warnings))
      = some ("<forget_it>x", ["Unhandled AIML tag: <forget_it>"])
    ∧ (∀ (config : Config) (file : String) (m : Machine),
        step asciiLower config file m (.EndElement "forget_it") = some m)
    ∧ rawXML (.EndElement "forget_it") = "</forget_it>"
    ∧ (processAIML asciiLower ⟨false⟩ "a.aiml"
        [.StartElement "widget_x" [("name", "z")]]).map
        (fun m => (m.state.Buffer, m.warnings))
      = some ("<widget_x z>", [])
    ∧ rawXML (.StartElement "widget_x" [("name", "z")]) = "<widget_x name=\"z\">" := by
  refine ⟨⟨by decide, by decide, by decide, by decide⟩, rfl, ?_, rfl, rfl, rfl⟩
  intro config file m
  have hk : ToLower asciiLower "forget_it" ∉ knownTags := by decide
  have hg : Contains (ToLower asciiLower "forget_it") "get_" = true := by decide
  simp [step, handleTag_getlike _ _ _ _ _ _ _ hk hg]

/-- Claim C13 (evaluation of the code): `sr` is treated as unknown on its close
event.  In every state `</sr>` leaves the dispatch with an empty `newText`, so
the routing code takes the literal tag; from the initial state `<sr>` followed
by `</sr>` leaves `<@></sr>` in the text buffer, not `<@>`, and records the
warning `Unhandled AIML tag: </sr>`.  The close events of `person`, `date` and
`size`, and `<bot>` without a name, take the same path. -/
theorem C13_sr_close_is_treated_as_unknown :
    (∀ (config : Config) (file : String) (m : Machine),
      step asciiLower config file m (.EndElement "sr") =
        some (routeText m (.EndElement "sr") "sr" ""))
    ∧ (processAIML asciiLower ⟨false⟩ "a.aiml"
        [.StartElement "sr" [], .EndElement "sr"]).map
        (fun m => (m.state.Buffer, m.warnings))
      = some ("<@></sr>", ["Unhandled AIML tag: </sr>"])
    ∧ (processAIML asciiLower ⟨false⟩ "a.aiml"
        [.StartElement "person" [], .EndElement "person"]).map
        (fun m => (m.state.Buffer, m.warnings))
      = some ("<person></person>", ["Unhandled AIML tag: </person>"])
    ∧ (processAIML asciiLower ⟨false⟩ "a.aiml"
        [.StartElement "date" [], .EndElement "date"]).map
        (fun m => (m.state.Buffer, m.warnings))
      = some ("<call>date</call></date>", ["Unhandled AIML tag: </date>"])
    ∧ (processAIML asciiLower ⟨false⟩ "a.aiml"
        [.StartElement "size" [], .EndElement "size"]).map
        (fun m => (m.state.Buffer, m.warnings))
      = some ("<call>size</call></size>", ["Unhandled AIML tag: </size>"])
    ∧ (processAIML asciiLower ⟨false⟩ "a.aiml"
        [.StartElement "bot" [], .EndElement "bot"]).map
        (fun m => (m.state.Buffer, m.warnings))
      = some ("<bot>", ["Unhandled AIML tag: <bot>"]) := by
  refine ⟨?_, rfl, rfl, rfl, rfl, rfl⟩
  intro config file m
  have h : ToLower asciiLower "sr" = "sr" := by decide
  simp [step, h, handleTag_sr]

/-- Claim C14: opening pattern, that or template sets `InTag` to that tag and
clears the text buffer, and nothing else.  Closing pattern stores the text
buffer with every `_` replaced by `*` in the pattern of the record in progress;
closing that or template stores the text buffer as it is in the field `That` or
`Template`; the other fields of the record, the other categories, the result
set and the warnings are unchanged. -/
theorem C14_container_open_and_close (lower : Char → Char) (config : Config)
    (file : String) (m : Machine) (name : String) (attrs : List (String × String))
    (tag : String) (hname : ToLower lower name = tag)
    (htag : tag = "pattern" ∨ tag = "that" ∨ tag = "template")
    (hvalid : m.state.Category < m.heap.length) :
    step lower config file m (.StartElement name attrs) =
      some (setState m { m.state with InTag := tag, Buffer := "" })
    ∧ ∃ m2, step lower config file m (.EndElement name) = some m2 ∧
        m2.parsed = m.parsed ∧ m2.warnings = m.warnings ∧
        m2.state.Category = m.state.Category ∧
        (∀ p, p ≠ m.state.Category → deref m2.heap p = deref m.heap p) ∧
        deref m2.heap m2.state.Category =
          (if tag = "pattern" then
            { deref m.heap m.state.Category with Pattern := replaceUnderscore m.state.Buffer }
           else if tag = "that" then
            { deref m.heap m.state.Category with That := m.state.Buffer }
           else { deref m.heap m.state.Category with Template := m.state.Buffer }) ∧
        m2.state =
          (if tag = "pattern" then
            { m.state with Buffer := replaceUnderscore m.state.Buffer }
           else m.state) := by
  subst hname
  have hrep : (if Contains m.state.Buffer "_" = true then replaceUnderscore m.state.Buffer
      else m.state.Buffer) = replaceUnderscore m.state.Buffer := by
    split_ifs with h
    · rfl
    · exact (replaceUnderscore_of_not_contains _ (by simpa using h)).symm
  rcases htag with h | h | h
  · rw [h]
    refine ⟨by simp [step, h, handleTag_pattern], closeContainer m "pattern",
      by simp [step, h, handleTag_pattern], rfl, rfl, rfl, ?_, ?_, ?_⟩
    · intro p hp
      simp only [closeContainer]
      exact deref_store_other _ _ _ _ hp
    · simp only [closeContainer]
      rw [deref_store_same _ _ _ hvalid]
      simp [hrep]
    · simp [closeContainer, hrep]
  · rw [h]
    refine ⟨by simp [step, h, handleTag_that], closeContainer m "that",
      by simp [step, h, handleTag_that], rfl, rfl, rfl, ?_, ?_, ?_⟩
    · intro p hp
      simp only [closeContainer]
      exact deref_store_other _ _ _ _ hp
    · simp only [closeContainer]
      rw [deref_store_same _ _ _ hvalid]
      simp
    · simp [closeContainer]
  · rw [h]
    refine ⟨by simp [step, h, handleTag_template], closeContainer m "template",
      by simp [step, h, handleTag_template], rfl, rfl, rfl, ?_, ?_, ?_⟩
    · intro p hp
      simp only [closeContainer]
      exact deref_store_other _ _ _ _ hp
    · simp only [closeContainer]
      rw [deref_store_same _ _ _ hvalid]
      simp
    · simp [closeContainer]

/-- Witness of C14: `</pattern>` with the text buffer `HELLO _` in the initial
state. -/
theorem C14_container_open_and_close_witness :
    step asciiLower ⟨false⟩ "a.aiml"
      (setState NewAIMLState { NewAIMLState.state with Buffer := "HELLO _" })
      (.StartElement "pattern" []) =
      some (setState NewAIMLState { NewAIMLState.state with InTag := "pattern", Buffer := "" })
    ∧ ∃ m2, step asciiLower ⟨false⟩ "a.aiml"
        (setState NewAIMLState { NewAIMLState.state with Buffer := "HELLO _" })
        (.EndElement "pattern") = some m2 ∧
        deref m2.heap m2.state.Category = { NewCategory with Pattern := "HELLO *" } :=
  match C14_container_open_and_close asciiLower ⟨false⟩ "a.aiml"
    (setState NewAIMLState { NewAIMLState.state with Buffer := "HELLO _" })
    "pattern" [] "pattern" (by decide) (Or.inl rfl) (by decide) with
  | ⟨h1, m2, h2, _, _, _, _, h7, _⟩ => ⟨h1, m2, h2, h7⟩

/-- Claim C15: without real topics, in every state reached from the initial
state `Topic` is `random` and every key of the result set is `random`; with
real topics, a topic open sets `Topic` to the value of its `name` attribute
and changes nothing else. -/
theorem C15_topic_follows_configuration (lower : Char → Char) (config : Config)
    (file : String) :
    (config.RealTopics = false →
      ∀ (tokens : List Token) (m : Machine),
        processAIML lower config file tokens = some m →
        m.state.Topic = "random" ∧ (∀ kv ∈ m.parsed.Topics, kv.1 = "random") ∧
        ∀ kv ∈ resultSet m, kv.1 = "random")
    ∧ (config.RealTopics = true →
      ∀ (m : Machine) (name : String) (attrs : List (String × String)),
        ToLower lower name = "topic" →
        step lower config file m (.StartElement name attrs) =
          some (setState m { m.state with Topic := attr lower attrs "name" })) := by
  constructor
  · intro hreal tokens m h
    have hP := run_preserves lower config file
      (fun x => x.state.Topic = "random" ∧ ∀ kv ∈ x.parsed.Topics, kv.1 = "random")
      (fun a b t ha hb => step_topic_random lower config file hreal a b t ha hb)
      tokens NewAIMLState m ⟨rfl, by simp [NewAIMLState]⟩ h
    refine ⟨hP.1, hP.2, ?_⟩
    intro kv hkv
    simp only [resultSet, List.mem_map] at hkv
    obtain ⟨kv1, h1, h2⟩ := hkv
    rw [← h2]
    exact hP.2 kv1 h1
  · intro hreal m name attrs htag
    simp [step, htag, handleTag_topic, hreal]

/-- Witness of C15: a category inside `<topic name="games">`, without and with
real topics. -/
theorem C15_topic_follows_configuration_witness :
    (∀ kv ∈ resultSet
        { state := { NewAIMLState.state with Category := 1 }
          parsed := { Topics := [("random", [1])] }
          heap := [NewCategory, NewCategory]
          warnings := [] }, kv.1 = "random")
    ∧ step asciiLower ⟨true⟩ "a.aiml" NewAIMLState (.StartElement "topic" [("name", "games")]) =
        some (setState NewAIMLState { NewAIMLState.state with Topic := "games" }) :=
  ⟨((C15_topic_follows_configuration asciiLower ⟨false⟩ "a.aiml").1 rfl
      [.StartElement "topic" [("name", "games")], .StartElement "category" [],
       .EndElement "category", .EndElement "topic"] _ rfl).2.2,
   (C15_topic_follows_configuration asciiLower ⟨true⟩ "a.aiml").2 rfl NewAIMLState "topic"
      [("name", "games")] (by decide)⟩

/-- Claim C16: a choice-item open inside a condition and not inside a random,
with an empty `name` attribute and an empty condition name, records exactly one
warning and changes nothing else: the state (branch list, `InCondition`,
`Tainted`, every buffer), the categories and the result set are the same. -/
theorem C16_item_without_name_is_skipped (lower : Char → Char) (config : Config)
    (file : String) (m : Machine) (name : String) (attrs : List (String × String))
    (htag : ToLower lower name = "li")
    (hrandom : m.state.InRandom = false) (hcond : m.state.InCondition = true)
    (hitem : attr lower attrs "name" = "") (hname : m.state.ConditionName = "") :
    step lower config file m (.StartElement name attrs) =
      some { m with
        warnings := m.warnings ++
          ["Condition too complicated to handle at " ++ file ++ " in pattern " ++
            (deref m.heap m.state.Category).Pattern] } := by
  simp [step, htag, handleTag_li, hrandom, hcond, conditionItem, hitem, hname, warn]

/-- Witness of C16: `<li value="a">` inside a condition without a name. -/
theorem C16_item_without_name_is_skipped_witness :
    step asciiLower ⟨false⟩ "a.aiml"
      (setState NewAIMLState { NewAIMLState.state with InCondition := true })
      (.StartElement "li" [("value", "a")]) =
      some { setState NewAIMLState { NewAIMLState.state with InCondition := true } with
        warnings := ["Condition too complicated to handle at a.aiml in pattern "] } :=
  C16_item_without_name_is_skipped asciiLower ⟨false⟩ "a.aiml"
    (setState NewAIMLState { NewAIMLState.state with InCondition := true })
    "li" [("value", "a")] (by decide) rfl rfl (by decide) rfl

/-- Claim C17 (counterexample): inside a condition and inside a random, an item
open without a value does not end the condition.  After
`<condition name="mood"><li value="happy"><random>` the item `<li>` opens a
random alternative and `InCondition` stays true. -/
theorem C17_item_inside_random_counterexample :
    (processAIML asciiLower ⟨false⟩ "a.aiml"
        [.StartElement "condition" [("name", "mood")],
         .StartElement "li" [("value", "happy")],
         .StartElement "random" []]).map
        (fun m => (m.state.InCondition, m.state.InRandom, m.state.ConditionName))
      = some (true, true, "mood")
    ∧ (processAIML asciiLower ⟨false⟩ "a.aiml"
        [.StartElement "condition" [("name", "mood")],
         .StartElement "li" [("value", "happy")],
         .StartElement "random" [], .StartElement "li" []]).map
        (fun m => (m.state.InCondition, m.state.Random, m.state.Conditions))
      = some (true, [""], ["<get mood> == happy => "]) := by
  constructor <;> rfl

/-- Claim C17 (amended): a choice-item open inside a condition and not inside a
random, with a resolvable variable name (its own `name` attribute or the name
of the condition is not empty) and with no or an empty `value` attribute, sets
`InCondition` to false and changes nothing else: the branch list is the same
and no warning is recorded. -/
theorem C17_item_without_value_ends_condition (lower : Char → Char) (config : Config)
    (file : String) (m : Machine) (name : String) (attrs : List (String × String))
    (htag : ToLower lower name = "li")
    (hrandom : m.state.InRandom = false) (hcond : m.state.InCondition = true)
    (hname : attr lower attrs "name" ≠ "" ∨ m.state.ConditionName ≠ "")
    (hvalue : attr lower attrs "value" = "") :
    step lower config file m (.StartElement name attrs) =
      some (setState m { m.state with InCondition := false }) := by
  have hn : (if attr lower attrs "name" = "" then m.state.ConditionName
      else attr lower attrs "name") ≠ "" := by
    by_cases h : attr lower attrs "name" = ""
    · rcases hname with h1 | h1
      · exact absurd h h1
      · simpa [h] using h1
    · simp [h]
  simp only [step, htag, handleTag_li, hrandom, hcond, conditionItem]
  simp [hn, hvalue]

/-- Witness of C17: `<li>` inside `<condition name="mood">`. -/
theorem C17_item_without_value_ends_condition_witness :
    step asciiLower ⟨false⟩ "a.aiml"
      (setState NewAIMLState { NewAIMLState.state with
        InCondition := true, ConditionName := "mood", Conditions := ["<get mood> == a => "] })
      (.StartElement "li" []) =
      some (setState NewAIMLState { NewAIMLState.state with
        InCondition := false, ConditionName := "mood",
        Conditions := ["<get mood> == a => "] }) :=
  C17_item_without_value_ends_condition asciiLower ⟨false⟩ "a.aiml"
    (setState NewAIMLState { NewAIMLState.state with
      InCondition := true, ConditionName := "mood", Conditions := ["<get mood> == a => "] })
    "li" [] (by decide) rfl rfl (Or.inr (by decide)) rfl

/-- Claim C18: for every record, when the lower-cased pattern contains a
character that is not an ASCII letter, not a digit and not one of
`<`, `>`, the braces, `=`, blank, `*`, `_`, `#`, `(`, `)`, `[`, `]`, the
serializer writes nothing for the record and gives exactly one warning;
otherwise it gives no warning and writes the line `+ ` with the lower-cased
pattern, then, when the preceding reply is not empty, the line `% ` with the
lower-cased preceding reply from which exactly the disallowed characters are
removed, then the condition lines and the template line.  What is written for
a record is part of the output of `WriteRiveScript` at the place of the record,
whatever the iteration order. -/
theorem C18_invalid_trigger_drops_record (lower : Char → Char) (category : Category) :
    ((∃ c ∈ (ToLower lower category.Pattern).data,
        ¬ (c.isAlpha = true ∨ c.isDigit = true ∨ c ∈ triggerPunctuation)) →
      writeCategory lower category =
        ([], ["Trigger \x27" ++ ToLower lower category.Pattern ++
          "\x27 has syntax errors. Skipping."]))
    ∧ ((∀ c ∈ (ToLower lower category.Pattern).data,
        c.isAlpha = true ∨ c.isDigit = true ∨ c ∈ triggerPunctuation) →
      writeCategory lower category =
        (["+ " ++ ToLower lower category.Pattern ++ "\n"] ++
          (if category.That ≠ "" then
            ["% " ++
              String.mk ((ToLower lower category.That).data.filter
                (fun c => c.isAlpha || c.isDigit || decide (c ∈ triggerPunctuation))) ++ "\n"]
           else []) ++
          category.Conditions.map (fun c => "* " ++ formatReply c ++ "\n") ++
          ["- " ++ formatReply category.Template ++ "\n\n"],
         []))
    ∧ (∀ (m : Machine) (before after : List (String × List Nat)) (topic : String)
        (earlier later : List Nat) (p : Nat),
        deref m.heap p = category →
        WriteRiveScript lower m (before ++ [(topic, earlier ++ [p] ++ later)] ++ after) =
          (["// Converted using aiml2rs.go\n", "! version = 2.0\n\n"] ++
            (writeTopics lower m.heap before).1 ++
            (if topic ≠ "random" then ["> topic " ++ topic ++ "\n\n"] else []) ++
            (writeCategories lower (earlier.map (deref m.heap))).1 ++
            (writeCategory lower category).1 ++
            (writeCategories lower (later.map (deref m.heap))).1 ++
            (if topic ≠ "random" then ["< topic\n\n"] else []) ++
            (writeTopics lower m.heap after).1,
           m.warnings ++ (writeTopics lower m.heap before).2 ++
            (writeCategories lower (earlier.map (deref m.heap))).2 ++
            (writeCategory lower category).2 ++
            (writeCategories lower (later.map (deref m.heap))).2 ++
            (writeTopics lower m.heap after).2)) := by
  refine ⟨?_, ?_, ?_⟩
  · rintro ⟨c, hc, hbad⟩
    have h : hasSyntaxError (ToLower lower category.Pattern) = true := by
      simp only [hasSyntaxError, List.any_eq_true]
      refine ⟨c, hc, ?_⟩
      rw [triggerSyntaxError_eq]
      simp only [not_or, Bool.not_eq_true] at hbad
      simp only [Bool.not_eq_true', Bool.or_eq_false_iff, decide_eq_false_iff_not]
      exact ⟨⟨hbad.1, hbad.2.1⟩, hbad.2.2⟩
    simp [writeCategory, h]
  · intro hall
    have h : hasSyntaxError (ToLower lower category.Pattern) = false := by
      simp only [hasSyntaxError, List.any_eq_false]
      intro c hc
      rw [triggerSyntaxError_eq]
      rcases hall c hc with h1 | h1 | h1 <;> simp [h1]
    have hf : (fun c => !TriggerSyntaxError c) =
        (fun c => c.isAlpha || c.isDigit || decide (c ∈ triggerPunctuation)) := by
      funext c
      rw [triggerSyntaxError_eq, Bool.not_not]
    simp [writeCategory, h, stripSyntaxErrors, hf]
  · intro m before after topic earlier later p hp
    simp [WriteRiveScript, writeTopics_append, writeTopics, writeTopic,
      writeCategories_append, writeCategories, hp, List.append_assoc]

/-- Witness of C18: the pattern `HELLO, A` is dropped with a warning; the
pattern `HELLO` with the preceding reply `What, now?` is written. -/
theorem C18_invalid_trigger_drops_record_witness :
    writeCategory asciiLower
      { Pattern := "HELLO, A", That := "What, now?", Template := "hi", Conditions := [] } =
      ([], ["Trigger \x27hello, a\x27 has syntax errors. Skipping."])
    ∧ writeCategory asciiLower
      { Pattern := "HELLO", That := "What, now?", Template := "hi", Conditions := [] } =
      (["+ hello\n", "% what now\n", "- hi\n\n"], []) :=
  ⟨(C18_invalid_trigger_drops_record asciiLower
      { Pattern := "HELLO, A", That := "What, now?", Template := "hi", Conditions := [] }).1
      ⟨',', by decide, by decide⟩,
   (C18_invalid_trigger_drops_record asciiLower
      { Pattern := "HELLO", That := "What, now?", Template := "hi", Conditions := [] }).2.1
      (by decide)⟩

/-- Claim C19 (counterexample): the topics need not be written in the order of
their first commit.  With real topics, a category in topic `a` followed by a
category in topic `b` gives the map entries `a` and `b`; the iteration of a Go
map can yield `b` first, and then the block of `b` is written before the block
of `a`. -/
theorem C19_topic_order_unspecified_counterexample :
    (processAIML asciiLower ⟨true⟩ "a.aiml"
        [.StartElement "topic" [("name", "a")], .StartElement "category" [],
         .StartElement "pattern" [], .CharData "A", .EndElement "pattern",
         .EndElement "category", .EndElement "topic",
         .StartElement "topic" [("name", "b")], .StartElement "category" [],
         .StartElement "pattern" [], .CharData "B", .EndElement "pattern",
         .EndElement "category", .EndElement "topic"]).map
        (fun m => (m.parsed.Topics,
          (WriteRiveScript asciiLower m [("b", [2]), ("a", [1])]).1))
      = some ([("a", [1]), ("b", [2])],
          ["// Converted using aiml2rs.go\n", "! version = 2.0\n\n",
           "> topic b\n\n", "+ b\n", "- \n\n", "< topic\n\n",
           "> topic a\n\n", "+ a\n", "- \n\n", "< topic\n\n"])
    ∧ List.Perm [("b", [2]), ("a", [1])] [("a", [1]), ("b", [2])] := by
  refine ⟨rfl, List.Perm.swap _ _ _⟩

/-- Claim C19 (amended): within each topic the records are written in the order
in which they were committed; the order of the topics is the iteration order of
the map, which is any permutation of its entries.  A commit appends the record
at the end of the sequence of its topic and leaves the other sequences as they
are; for every iteration order, the block of a topic is its opening line (not
for `random`), what is written for its records one after the other in the
order of the sequence, and its closing line. -/
theorem C19_records_in_commit_order (lower : Char → Char) (m : Machine)
    (order before after : List (String × List Nat)) (topic : String) (records : List Nat)
    (hperm : order.Perm m.parsed.Topics)
    (horder : order = before ++ [(topic, records)] ++ after) :
    (topic, records) ∈ m.parsed.Topics
    ∧ (WriteRiveScript lower m order).1 =
        ["// Converted using aiml2rs.go\n", "! version = 2.0\n\n"] ++
          (writeTopics lower m.heap before).1 ++
          (if topic ≠ "random" then ["> topic " ++ topic ++ "\n\n"] else []) ++
          records.flatMap (fun p => (writeCategory lower (deref m.heap p)).1) ++
          (if topic ≠ "random" then ["< topic\n\n"] else []) ++
          (writeTopics lower m.heap after).1
    ∧ (∀ a : Machine, a.state.Tainted = false →
        lookupTopic (closeCategory a).parsed.Topics a.state.Topic =
          lookupTopic a.parsed.Topics a.state.Topic ++ [a.state.Category] ∧
        ∀ other, other ≠ a.state.Topic →
          lookupTopic (closeCategory a).parsed.Topics other =
            lookupTopic a.parsed.Topics other) := by
  refine ⟨?_, ?_, ?_⟩
  · apply hperm.subset
    rw [horder]
    simp
  · rw [horder]
    simp [WriteRiveScript, writeTopics_append, writeTopics, writeTopic,
      (writeCategories_lines lower _).1, List.flatMap_map, List.append_assoc]
  · intro a ha
    have h := lookupTopic_appendTopic a.parsed.Topics a.state.Topic a.state.Category
    simpa [closeCategory, ha] using h

/-- Witness of C19: two records in topic `a` and one in topic `b`, the map
iterated with `b` first. -/
theorem C19_records_in_commit_order_witness :
    (WriteRiveScript asciiLower
      { state := NewAIMLState.state
        parsed := { Topics := [("a", [1, 2]), ("b", [3])] }
        heap := [NewCategory, { NewCategory with Pattern := "ONE" },
          { NewCategory with Pattern := "TWO" }, { NewCategory with Pattern := "THREE" }]
        warnings := [] }
      [("b", [3]), ("a", [1, 2])]).1 =
      ["// Converted using aiml2rs.go\n", "! version = 2.0\n\n",
       "> topic b\n\n", "+ three\n", "- \n\n", "< topic\n\n",
       "> topic a\n\n", "+ one\n", "- \n\n", "+ two\n", "- \n\n", "< topic\n\n"] :=
  (C19_records_in_commit_order asciiLower
    { state := NewAIMLState.state
      parsed := { Topics := [("a", [1, 2]), ("b", [3])] }
      heap := [NewCategory, { NewCategory with Pattern := "ONE" },
        { NewCategory with Pattern := "TWO" }, { NewCategory with Pattern := "THREE" }]
      warnings := [] }
    [("b", [3]), ("a", [1, 2])] [("b", [3])] [] "a" [1, 2]
    (List.Perm.swap _ _ _) rfl).2.1

/-- Claim C20: an open or close event of a simple-substitution tag is defined
and leaves the categories, the result set and every control field of the state
unchanged (`Topic`, `InTag`, the pointer to the record in progress, `Thinking`,
`SetName`, `InRandom`, `InCondition`, `ConditionName`, `Tainted`); the state is
either the same or differs in one text accumulator only, to which a text `r` is
appended: the assignment value, the last random alternative (the first one when
there is none yet), the last condition branch, or the text buffer. -/
theorem C20_substitution_keeps_control_state (lower : Char → Char) (config : Config)
    (file : String) (m : Machine) (token : Token) (name : String)
    (attrs : List (String × String))
    (htoken : token = .StartElement name attrs ∨ token = .EndElement name)
    (htag : ToLower lower name ∈ substitutionTags) :
    ∃ m2, step lower config file m token = some m2 ∧
      m2.parsed = m.parsed ∧ m2.heap = m.heap ∧
      (m2.state.Topic = m.state.Topic ∧ m2.state.InTag = m.state.InTag ∧
        m2.state.Category = m.state.Category ∧ m2.state.Thinking = m.state.Thinking ∧
        m2.state.SetName = m.state.SetName ∧ m2.state.InRandom = m.state.InRandom ∧
        m2.state.InCondition = m.state.InCondition ∧
        m2.state.ConditionName = m.state.ConditionName ∧
        m2.state.Tainted = m.state.Tainted) ∧
      ∃ r : String,
        m2.state = m.state
        ∨ m2.state = { m.state with SetValue := m.state.SetValue ++ r }
        ∨ m2.state = { m.state with
            Random := appendLast (if m.state.Random = [] then [""] else m.state.Random) r }
        ∨ (m.state.Conditions ≠ [] ∧
            m2.state = { m.state with Conditions := appendLast m.state.Conditions r })
        ∨ m2.state = { m.state with Buffer := m.state.Buffer ++ r } := by
  have hd : dispatch lower config file m token = some (.next m) ∨
      ∃ text, dispatch lower config file m token =
        some (.emit m (ToLower lower name) text) := by
    rcases htoken with h | h <;> subst h
    · rcases substitution_outcome lower config file m true _ attrs htag with h1 | ⟨t, h1⟩
      · exact Or.inl (by simp [dispatch, h1])
      · exact Or.inr ⟨t, by simp [dispatch, h1]⟩
    · rcases substitution_outcome lower config file m false _ [] htag with h1 | ⟨t, h1⟩
      · exact Or.inl (by simp [dispatch, h1])
      · exact Or.inr ⟨t, by simp [dispatch, h1]⟩
  rcases hd with hd | ⟨text, hd⟩
  · exact ⟨m, step_of_next _ _ _ _ _ _ hd, rfl, rfl,
      ⟨rfl, rfl, rfl, rfl, rfl, rfl, rfl, rfl, rfl⟩, "", Or.inl rfl⟩
  · obtain ⟨h1, h2, h3, -⟩ := routeText_spec m token (ToLower lower name) text
    refine ⟨routeText m token (ToLower lower name) text, step_of_emit _ _ _ _ _ _ _ _ hd,
      h2, h3, ?_, (if text = "" then rawXML token else text), ?_⟩
    · rw [h1]
      split_ifs <;> exact ⟨rfl, rfl, rfl, rfl, rfl, rfl, rfl, rfl, rfl⟩
    · rw [h1]
      by_cases a : m.state.SetName ≠ ""
      · rw [if_pos a]
        exact Or.inr (Or.inl rfl)
      · rw [if_neg a]
        by_cases b : m.state.InRandom = true
        · rw [if_pos b]
          exact Or.inr (Or.inr (Or.inl rfl))
        · rw [if_neg b]
          by_cases c : m.state.InCondition = true
          · rw [if_pos c]
            by_cases d : m.state.Conditions ≠ []
            · rw [if_pos d]
              exact Or.inr (Or.inr (Or.inr (Or.inl ⟨d, rfl⟩)))
            · rw [if_neg d]
              exact Or.inl rfl
          · rw [if_neg c]
            exact Or.inr (Or.inr (Or.inr (Or.inr rfl)))

/-- Witness of C20: `<star index="2">` inside a set. -/
theorem C20_substitution_keeps_control_state_witness :
    ∃ m2, step asciiLower ⟨false⟩ "a.aiml"
        (setState NewAIMLState { NewAIMLState.state with SetName := "x" })
        (.StartElement "star" [("index", "2")]) = some m2 ∧
      m2.state.SetName = "x" ∧ m2.state.InRandom = false ∧ m2.heap = [NewCategory] :=
  match C20_substitution_keeps_control_state asciiLower ⟨false⟩ "a.aiml"
    (setState NewAIMLState { NewAIMLState.state with SetName := "x" })
    (.StartElement "star" [("index", "2")]) "star" [("index", "2")] (Or.inl rfl)
    (by decide) with
  | ⟨m2, h1, _, h3, h4, _⟩ => ⟨m2, h1, h4.2.2.2.2.1, h4.2.2.2.2.2.1, h3⟩

/-- Claim C21 (evaluation of the code): a text token can index an empty list.
After `<condition name="x">` the state has `InCondition` true, no assignment
name, `InRandom` false and an empty branch list; the text `hello` then makes
`state.Conditions[len(state.Conditions)-1]` fail, so the step is not defined,
in this run and in every state of that shape.  The routing code for tags guards
the same index: `<star>` in the same place is defined. -/
theorem C21_text_in_empty_condition_is_undefined :
    (processAIML asciiLower ⟨false⟩ "a.aiml"
        [.StartElement "condition" [("name", "x")]]).map
        (fun m => (m.state.InCondition, m.state.SetName, m.state.InRandom,
          m.state.Conditions))
      = some (true, "", false, [])
    ∧ processAIML asciiLower ⟨false⟩ "a.aiml"
        [.StartElement "condition" [("name", "x")], .CharData "hello"] = none
    ∧ (∀ (config : Config) (file : String) (m : Machine),
        step asciiLower config file
          (setState m { m.state with
            SetName := "", InRandom := false, InCondition := true, Conditions := [] })
          (.CharData "hello") = none)
    ∧ (processAIML asciiLower ⟨false⟩ "a.aiml"
        [.StartElement "condition" [("name", "x")], .StartElement "star" []]).isSome
      = true := by
  refine ⟨rfl, rfl, ?_, rfl⟩
  intro config file m
  have h : TrimSpace "hello" = "hello" := by decide
  simp [step, handleText, h, setState]

/-- Claim C23 (evaluation of the code): the trimmed text of a text token is not
always appended to the routing target.  After
`<condition name="x" value="y">` the text is routed to the condition branches
(`InCondition` is true, no assignment name, `InRandom` false) and the branch
list is empty; the text ` hello `, trimmed to `hello`, then indexes the empty
list and the step is not defined.  In every state of that shape a text token
leaves the machine unchanged when it is blank and has no defined step
otherwise.  Outside that state the trimmed text is appended: from the initial
state, the text `Hello ` followed by `<star>` gives the text buffer
`Hello<star>`. -/
theorem C23_trimmed_text_without_branch_is_undefined :
    TrimSpace " hello " = "hello"
    ∧ (processAIML asciiLower ⟨false⟩ "a.aiml"
        [.StartElement "condition" [("name", "x"), ("value", "y")]]).map
        (fun m => (m.state.SetName, m.state.InRandom, m.state.InCondition,
          m.state.Conditions))
      = some ("", false, true, [])
    ∧ processAIML asciiLower ⟨false⟩ "a.aiml"
        [.StartElement "condition" [("name", "x"), ("value", "y")], .CharData " hello "]
      = none
    ∧ (∀ (lower : Char → Char) (config : Config) (file : String) (m : Machine) (text : String),
        step lower config file
          (setState m { m.state with
            SetName := "", InRandom := false, InCondition := true, Conditions := [] })
          (.CharData text) =
          (if TrimSpace text = "" then
            some (setState m { m.state with
              SetName := "", InRandom := false, InCondition := true, Conditions := [] })
           else none))
    ∧ (processAIML asciiLower ⟨false⟩ "a.aiml"
        [.CharData "Hello ", .StartElement "star" []]).map (fun a => a.state.Buffer)
      = some "Hello<star>" := by
  refine ⟨by decide, rfl, rfl, ?_, rfl⟩
  intro lower config file m text
  by_cases h : TrimSpace text = ""
  · simp [step, handleText, h]
  · simp [step, handleText, h, setState]

end Aiml2rs
